import Mathlib

/-!
# Pairing API client (`client/pairing.go`)

A shallow embedding of the four operations of `PairingService` together with the
pieces of the Go standard library they rely on (`path.Join`, `path.Clean`, the
struct decoding rules of `encoding/json`).  `net/url` and the HTTP transport are
parameters of the development.
-/

namespace client

/-! ## Package `path`

Go reads a path byte by byte; here it is read character by character.  The two agree
on every string of valid UTF-8, since `/` and `.` are single bytes that never occur
inside the encoding of another character. -/

/-- `r+1 == n || path[r+1] == '/'`: the element being read ends here. -/
def atElemEnd : List Char → Bool
  | [] => true
  | c :: _ => c == '/'

/-- The inner loop of the `..` case of `path.Clean`, started after the first `out.w--`:
`for out.w > dotdot && out.index(out.w) != '/' { out.w-- }`.  Returns the final `out.w`. -/
def backtrack (buf : List Char) (dotdot : Nat) : Nat → Nat
  | 0 => 0
  | w + 1 =>
    if dotdot < w + 1 ∧ buf.getD (w + 1) '/' ≠ '/' then backtrack buf dotdot w else w + 1

/-- The `..` case of `path.Clean`: the new buffer and the new value of `dotdot`. -/
def dotdotStep (rooted : Bool) (out : List Char) (dotdot : Nat) : List Char × Nat :=
  if dotdot < out.length then
    (out.take (backtrack out dotdot (out.length - 1)), dotdot)
  else if !rooted then
    let out1 := if 0 < out.length then out ++ ['/'] else out
    (out1 ++ ['.', '.'], (out1 ++ ['.', '.']).length)
  else
    (out, dotdot)

/-- The "add slash if needed" step in the default case of `path.Clean`. -/
def addSlash (rooted : Bool) (out : List Char) : List Char :=
  if (rooted && out.length != 1) || (!rooted && out.length != 0) then out ++ ['/'] else out

/-- The main loop of `path.Clean`.  `rest` is `path[r:]`, `out` is the contents of the
lazy buffer; `copying` is true while the loop that copies a real path element runs. -/
def cleanLoop (rooted : Bool) : Bool → List Char → List Char → Nat → List Char × Nat
  | _, [], out, dotdot => (out, dotdot)
  | true, c :: rest, out, dotdot =>
    if c = '/' then cleanLoop rooted false rest out dotdot
    else cleanLoop rooted true rest (out ++ [c]) dotdot
  | false, c :: rest, out, dotdot =>
    if c = '/' then cleanLoop rooted false rest out dotdot
    else if c = '.' ∧ atElemEnd rest = true then cleanLoop rooted false rest out dotdot
    else
      match rest with
      | [] => cleanLoop rooted true [] (addSlash rooted out ++ [c]) dotdot
      | d :: rest2 =>
        if c = '.' ∧ d = '.' ∧ atElemEnd rest2 = true then
          cleanLoop rooted false rest2 (dotdotStep rooted out dotdot).1
            (dotdotStep rooted out dotdot).2
        else cleanLoop rooted true (d :: rest2) (addSlash rooted out ++ [c]) dotdot

/-- Go `path.Clean` on the characters of the path. -/
def cleanChars (path : List Char) : List Char :=
  match path with
  | [] => ['.']
  | c :: rest =>
    let out :=
      if c = '/' then (cleanLoop true false rest ['/'] 1).1
      else (cleanLoop false false (c :: rest) [] 0).1
    if out.length = 0 then ['.'] else out

/-- Go `path.Clean`. -/
def Clean (path : String) : String := ⟨cleanChars path.data⟩

/-- Go `strings.Join`. -/
def stringsJoin : List String → String → String
  | [], _ => ""
  | e :: es, sep => es.foldl (fun acc x => acc ++ sep ++ x) e

/-- Go `path.Join`: the elements from the first non-empty one on are joined with
slashes and the result is cleaned; all elements empty gives the empty string. -/
def Join (elem : List String) : String :=
  match elem.dropWhile (fun e => e == "") with
  | [] => ""
  | e :: es => Clean (stringsJoin (e :: es) "/")

/-- `fmt.Sprintf` with a format made of literal text and `%s` verbs, applied to
strings: the pieces in order. -/
def Sprintf (pieces : List String) : String := pieces.foldl (fun acc x => acc ++ x) ""

/-! ## Go values shared by the operations -/

/-- Go `error` values.  `external` stands for every error made outside this package
(network failure, unexpected HTTP status, I/O or syntax error while reading the
body); `unmarshalType` is `*json.UnmarshalTypeError` with its `Value` field. -/
inductive GoError where
  | external (msg : String)
  | unmarshalType (value : String)
  deriving DecidableEq, Repr

/-- A JSON value as read from a response body. -/
inductive JSON where
  | null
  | bool (b : Bool)
  | number (literal : String)
  | string (s : String)
  | array (elems : List JSON)
  | object (members : List (String × JSON))

/-! ## Package `encoding/json`: storing a value into a Go struct -/

/-- One step of the key comparison of `encoding/json` for an ASCII field name `s`
and a key `t` (`equalFoldRight`, of which `asciiEqualFold` and
`simpleLetterEqualFold` are the restrictions to names without `k` and `s`):
`sb` is a character of the name, `tb` the character of the key at the same place. -/
def foldEqChar (sb tb : Char) : Bool :=
  if tb.toNat < 128 then
    sb == tb ||
      (65 ≤ (sb.toNat &&& 0xDF) && (sb.toNat &&& 0xDF) ≤ 90 &&
        (sb.toNat &&& 0xDF) == (tb.toNat &&& 0xDF))
  else
    ((sb == 's' || sb == 'S') && tb.toNat == 0x17F) ||
      ((sb == 'k' || sb == 'K') && tb.toNat == 0x212A)

/-- The case-insensitive key match of `encoding/json`. -/
def equalFold : List Char → List Char → Bool
  | [], [] => true
  | sb :: s, tb :: t => foldEqChar sb tb && equalFold s t
  | _, _ => false

/-- An object key selects the field tagged `tag`: exact match or match under folding. -/
def keyMatches (tag key : String) : Bool := tag == key || equalFold tag.data key.data

/-- `d.object` for a struct with one tagged field: the members are visited in order,
a member whose key selects the field is stored into it by `store`, every other member
is skipped.  The first error is the result of the decoding. -/
def objectInto {α : Type} (tag : String) (store : JSON → α → Except GoError α) :
    List (String × JSON) → α → Except GoError α
  | [], v => .ok v
  | (key, item) :: members, v =>
    if keyMatches tag key then
      match store item v with
      | .ok v1 => objectInto tag store members v1
      | .error e => .error e
    else objectInto tag store members v

/-- `d.value` for a target of struct kind: an object is stored member by member,
`null` leaves the target alone, anything else is an `UnmarshalTypeError`. -/
def structValue {α : Type} (members : List (String × JSON) → α → Except GoError α)
    (item : JSON) (v : α) : Except GoError α :=
  match item with
  | .object ms => members ms v
  | .null => .ok v
  | .bool _ => .error (.unmarshalType "bool")
  | .number _ => .error (.unmarshalType "number")
  | .string _ => .error (.unmarshalType "string")
  | .array _ => .error (.unmarshalType "array")

/-- `d.value` for a target of kind string. -/
def stringValue (item : JSON) (v : String) : Except GoError String :=
  match item with
  | .string s => .ok s
  | .null => .ok v
  | .bool _ => .error (.unmarshalType "bool")
  | .number _ => .error (.unmarshalType "number")
  | .array _ => .error (.unmarshalType "array")
  | .object _ => .error (.unmarshalType "object")

/-- Storing into one field of a struct: the field is read, stored into, written back. -/
def intoField {α β : Type} (get : α → β) (set : α → β → α)
    (store : JSON → β → Except GoError β) (item : JSON) (v : α) : Except GoError α :=
  match store item (get v) with
  | .ok b => .ok (set v b)
  | .error e => .error e

/-- The `*json.Decoder` handed back by the transport, with the settings of
`json.NewDecoder`: reading the next value from the response body either fails (I/O
error, syntax error, end of input) or gives a value. -/
structure Decoder where
  next : Except GoError JSON

/-- `decoder.Decode(&v)`: read the next value, then store it into `v`. -/
def Decoder.Decode {α : Type} (d : Decoder) (store : JSON → α → Except GoError α) (v : α) :
    Except GoError α :=
  match d.next with
  | .error e => .error e
  | .ok item => store item v

/-! ## Response types -/

/-- Modelled from the spec: the type `deviceRegistrationResponse` is declared outside
`pairing.go`; the envelope is `{data: {credentials_secret}}`. -/
structure deviceRegistrationResponse where
  CredentialsSecret : String
  deriving DecidableEq, Repr

/-- Modelled from the spec: the type `getMQTTv1CertificateResponse` is declared outside
`pairing.go`; the envelope is `{data: {client_crt}}`. -/
structure getMQTTv1CertificateResponse where
  ClientCertificate : String
  deriving DecidableEq, Repr

/-- Modelled from the spec: the type `AstarteMQTTv1ProtocolInformation` is declared
outside `pairing.go`; the one field the spec names is `broker_url`. -/
structure AstarteMQTTv1ProtocolInformation where
  BrokerURL : String
  deriving DecidableEq, Repr

/-- Modelled from the spec: the `protocols` member of `getDeviceProtocolStatusResponse`,
`{astarte_mqtt_v1: ProtocolInfo}`. -/
structure deviceProtocols where
  AstarteMQTTv1 : AstarteMQTTv1ProtocolInformation
  deriving DecidableEq, Repr

/-- Modelled from the spec: the type `getDeviceProtocolStatusResponse` is declared
outside `pairing.go`; the envelope is `{data: {protocols: {astarte_mqtt_v1: ...}}}`. -/
structure getDeviceProtocolStatusResponse where
  Protocols : deviceProtocols
  deriving DecidableEq, Repr

/-- The anonymous struct `responseBody` of the operations: one field `Data`, tag `data`. -/
structure responseBody (α : Type) where
  Data : α
  deriving DecidableEq, Repr

/-- Storing into `deviceRegistrationResponse`. -/
def storeDeviceRegistrationResponse :
    JSON → deviceRegistrationResponse → Except GoError deviceRegistrationResponse :=
  structValue (objectInto "credentials_secret"
    (intoField (fun v => v.CredentialsSecret) (fun _ s => ⟨s⟩) stringValue))

/-- Storing into `getMQTTv1CertificateResponse`. -/
def storeGetMQTTv1CertificateResponse :
    JSON → getMQTTv1CertificateResponse → Except GoError getMQTTv1CertificateResponse :=
  structValue (objectInto "client_crt"
    (intoField (fun v => v.ClientCertificate) (fun _ s => ⟨s⟩) stringValue))

/-- Storing into `AstarteMQTTv1ProtocolInformation`. -/
def storeAstarteMQTTv1ProtocolInformation :
    JSON → AstarteMQTTv1ProtocolInformation → Except GoError AstarteMQTTv1ProtocolInformation :=
  structValue (objectInto "broker_url"
    (intoField (fun v => v.BrokerURL) (fun _ s => ⟨s⟩) stringValue))

/-- Storing into the `protocols` struct. -/
def storeDeviceProtocols : JSON → deviceProtocols → Except GoError deviceProtocols :=
  structValue (objectInto "astarte_mqtt_v1"
    (intoField (fun v => v.AstarteMQTTv1) (fun _ p => ⟨p⟩) storeAstarteMQTTv1ProtocolInformation))

/-- Storing into `getDeviceProtocolStatusResponse`. -/
def storeGetDeviceProtocolStatusResponse :
    JSON → getDeviceProtocolStatusResponse → Except GoError getDeviceProtocolStatusResponse :=
  structValue (objectInto "protocols"
    (intoField (fun v => v.Protocols) (fun _ p => ⟨p⟩) storeDeviceProtocols))

/-- Storing into `responseBody`: the field `Data` carries the tag `data`. -/
def storeResponseBody {α : Type} (store : JSON → α → Except GoError α) :
    JSON → responseBody α → Except GoError (responseBody α) :=
  structValue (objectInto "data" (intoField (fun v => v.Data) (fun _ d => ⟨d⟩) store))

/-! ## Package `net/url` -/

/-- Go `url.Userinfo`. -/
structure Userinfo where
  username : String
  password : String
  passwordSet : Bool
  deriving DecidableEq, Repr

/-- Go `url.URL`. -/
structure URL where
  Scheme : String
  Opaque : String
  User : Option Userinfo
  Host : String
  Path : String
  RawPath : String
  ForceQuery : Bool
  RawQuery : String
  Fragment : String
  deriving DecidableEq, Repr

/-- The two functions of `net/url` the operations call.  They are parameters: every
statement below holds for whatever `url.Parse` and `(*URL).String` compute. -/
structure NetURL where
  Parse : String → Except GoError URL
  URLString : URL → String

/-! ## The transport and the memory the operations run in -/

/-- The request bodies: `struct { HwID string }` tagged `hw_id` and
`struct { CSR string }` tagged `csr`. -/
inductive Payload where
  | hwID (HwID : String)
  | csr (CSR : String)
  deriving DecidableEq, Repr

/-- The three methods of `*Client` called by `pairing.go`, as functions of the state
`σ` of the transport.  Arguments in order: URL string, (payload,) authorization
token, expected return code. -/
structure Client (σ : Type) where
  genericJSONDataAPIPostWithResponse :
    String → Payload → String → Nat → σ → Except GoError Decoder × σ
  genericJSONDataAPIDelete : String → String → Nat → σ → Option GoError × σ
  genericJSONDataAPIGET : String → String → Nat → σ → Except GoError Decoder × σ

/-- What an operation did, in order. -/
inductive Event where
  | postWithResponse (url : String) (body : Payload) (token : String) (expected : Nat)
  | delete (url : String) (token : String) (expected : Nat)
  | get (url : String) (token : String) (expected : Nat)
  | decode (d : Decoder)

/-- Calls of the transport, as opposed to uses of a decoder. -/
def Event.isTransportCall : Event → Bool
  | .decode _ => false
  | _ => true

/-- The calls of the transport in a trace, in order. -/
def transportCalls (t : List Event) : List Event := t.filter Event.isTransportCall

/-- The struct `PairingService`: two pointers.  `pairingURL` is an index into the
allocated `url.URL` values, `none` is `nil`. -/
structure PairingService where
  client : Nat
  pairingURL : Option Nat
  deriving DecidableEq, Repr

/-- The memory an operation runs in: the struct its receiver points to, the `url.URL`
values allocated so far (a `*url.URL` is an index), the state of the transport and the
trace of calls. -/
structure World (σ : Type) where
  service : PairingService
  urls : List URL
  transport : σ
  trace : List Event

/-- How a Go call ends: it returns, or it panics (here: on a nil pointer). -/
inductive Outcome (α : Type) where
  | returned (value : α)
  | panicked

/-- The value of `*s.pairingURL`, if the pointer can be dereferenced. -/
def World.baseURL {σ : Type} (w : World σ) : Option URL :=
  w.service.pairingURL.bind (fun p => w.urls[p]?)

/-- `s.client.genericJSONDataAPIPostWithResponse(...)`, recorded in the trace. -/
def World.postWithResponse {σ : Type} (w : World σ) (c : Client σ) (url : String)
    (body : Payload) (token : String) (expected : Nat) : Except GoError Decoder × World σ :=
  ((c.genericJSONDataAPIPostWithResponse url body token expected w.transport).1,
    { w with
      transport := (c.genericJSONDataAPIPostWithResponse url body token expected w.transport).2
      trace := w.trace ++ [Event.postWithResponse url body token expected] })

/-- `s.client.genericJSONDataAPIDelete(...)`, recorded in the trace. -/
def World.delete {σ : Type} (w : World σ) (c : Client σ) (url : String)
    (token : String) (expected : Nat) : Option GoError × World σ :=
  ((c.genericJSONDataAPIDelete url token expected w.transport).1,
    { w with
      transport := (c.genericJSONDataAPIDelete url token expected w.transport).2
      trace := w.trace ++ [Event.delete url token expected] })

/-- `s.client.genericJSONDataAPIGET(...)`, recorded in the trace. -/
def World.get {σ : Type} (w : World σ) (c : Client σ) (url : String)
    (token : String) (expected : Nat) : Except GoError Decoder × World σ :=
  ((c.genericJSONDataAPIGET url token expected w.transport).1,
    { w with
      transport := (c.genericJSONDataAPIGET url token expected w.transport).2
      trace := w.trace ++ [Event.get url token expected] })

/-- `decoder.Decode(&responseBody)`, recorded in the trace. -/
def World.decode {σ α : Type} (w : World σ) (d : Decoder)
    (store : JSON → α → Except GoError α) (v : α) : Except GoError α × World σ :=
  (d.Decode store v, { w with trace := w.trace ++ [Event.decode d] })

/-! ## `pairing.go` -/

/-- The first two statements of every operation:
`callURL, _ := url.Parse(s.pairingURL.String())` and
`callURL.Path = path.Join(callURL.Path, suffix)`.
The result is the pointer `callURL`; `none` when a nil pointer was dereferenced
(`s.pairingURL` is nil, or `url.Parse` failed and its error was dropped). -/
def newCallURL {σ : Type} (net : NetURL) (suffix : String) (w : World σ) :
    Option Nat × World σ :=
  match w.baseURL with
  | none => (none, w)
  | some base =>
    match net.Parse (net.URLString base) with
    | .error _ => (none, w)
    | .ok u =>
      let callURL := w.urls.length
      let w1 := { w with urls := w.urls ++ [u] }
      match w1.urls[callURL]? with
      | none => (none, w1)
      | some cu =>
        (some callURL,
          { w1 with urls := w1.urls.set callURL { cu with Path := Join [cu.Path, suffix] } })

/-- `callURL.String()`. -/
def callURLString {σ : Type} (net : NetURL) (callURL : Nat) (w : World σ) : Option String :=
  (w.urls[callURL]?).map net.URLString

/-- `func (s *PairingService) RegisterDevice(realm, deviceID, token string) (string, error)`. -/
def RegisterDevice {σ : Type} (net : NetURL) (c : Client σ) (realm deviceID token : String)
    (w : World σ) : Outcome (String × Option GoError) × World σ :=
  match newCallURL net (Sprintf ["/v1/", realm, "/agent/devices"]) w with
  | (none, w1) => (.panicked, w1)
  | (some callURL, w1) =>
    match callURLString net callURL w1 with
    | none => (.panicked, w1)
    | some url =>
      let requestBody := Payload.hwID deviceID
      match w1.postWithResponse c url requestBody token 201 with
      | (.error err, w2) => (.returned ("", some err), w2)
      | (.ok decoder, w2) =>
        match w2.decode decoder (storeResponseBody storeDeviceRegistrationResponse) ⟨⟨""⟩⟩ with
        | (.error err, w3) => (.returned ("", some err), w3)
        | (.ok responseBody, w3) =>
          (.returned (responseBody.Data.CredentialsSecret, none), w3)

/-- `func (s *PairingService) UnregisterDevice(realm, deviceID, token string) error`. -/
def UnregisterDevice {σ : Type} (net : NetURL) (c : Client σ) (realm deviceID token : String)
    (w : World σ) : Outcome (Option GoError) × World σ :=
  match newCallURL net (Sprintf ["/v1/", realm, "/agent/devices/", deviceID]) w with
  | (none, w1) => (.panicked, w1)
  | (some callURL, w1) =>
    match callURLString net callURL w1 with
    | none => (.panicked, w1)
    | some url =>
      match w1.delete c url token 204 with
      | (some err, w2) => (.returned (some err), w2)
      | (none, w2) => (.returned none, w2)

/-- `func (s *PairingService) ObtainNewMQTTv1CertificateForDevice(realm, deviceID,
credentialsSecret, csr string) (string, error)`. -/
def ObtainNewMQTTv1CertificateForDevice {σ : Type} (net : NetURL) (c : Client σ)
    (realm deviceID credentialsSecret csr : String) (w : World σ) :
    Outcome (String × Option GoError) × World σ :=
  match newCallURL net
      (Sprintf ["/v1/", realm, "/devices/", deviceID, "/protocols/astarte_mqtt_v1/credentials"])
      w with
  | (none, w1) => (.panicked, w1)
  | (some callURL, w1) =>
    match callURLString net callURL w1 with
    | none => (.panicked, w1)
    | some url =>
      let requestBody := Payload.csr csr
      match w1.postWithResponse c url requestBody credentialsSecret 201 with
      | (.error err, w2) => (.returned ("", some err), w2)
      | (.ok decoder, w2) =>
        match w2.decode decoder (storeResponseBody storeGetMQTTv1CertificateResponse)
            ⟨⟨""⟩⟩ with
        | (.error err, w3) => (.returned ("", some err), w3)
        | (.ok responseBody, w3) =>
          (.returned (responseBody.Data.ClientCertificate, none), w3)

/-- `func (s *PairingService) GetMQTTv1ProtocolInformationForDevice(realm, deviceID,
credentialsSecret string) (AstarteMQTTv1ProtocolInformation, error)`. -/
def GetMQTTv1ProtocolInformationForDevice {σ : Type} (net : NetURL) (c : Client σ)
    (realm deviceID credentialsSecret : String) (w : World σ) :
    Outcome (AstarteMQTTv1ProtocolInformation × Option GoError) × World σ :=
  match newCallURL net (Sprintf ["/v1/", realm, "/devices/", deviceID]) w with
  | (none, w1) => (.panicked, w1)
  | (some callURL, w1) =>
    match callURLString net callURL w1 with
    | none => (.panicked, w1)
    | some url =>
      match w1.get c url credentialsSecret 200 with
      | (.error err, w2) => (.returned (⟨""⟩, some err), w2)
      | (.ok decoder, w2) =>
        match w2.decode decoder (storeResponseBody storeGetDeviceProtocolStatusResponse)
            ⟨⟨⟨⟨""⟩⟩⟩⟩ with
        | (.error err, w3) => (.returned (⟨""⟩, some err), w3)
        | (.ok responseBody, w3) =>
          (.returned (responseBody.Data.Protocols.AstarteMQTTv1, none), w3)

/-! ## Vocabulary of the statements -/

/-- The per-call copy of the base URL exists and is `u`: `s.pairingURL` points to a
URL whose string form `url.Parse` accepts, with result `u`. -/
def CopiesTo {σ : Type} (net : NetURL) (w : World σ) (u : URL) : Prop :=
  ∃ base, w.baseURL = some base ∧ net.Parse (net.URLString base) = .ok u

/-- The URL string handed to the transport when the copy of the base URL is `u` and the
formatted path is `suffix`. -/
def requestURL (net : NetURL) (u : URL) (suffix : String) : String :=
  net.URLString { u with Path := Join [u.Path, suffix] }

/-- The characters of a single valid path segment: non-empty, without a slash, neither
`.` nor `..`. -/
def ValidChars (seg : List Char) : Prop :=
  seg ≠ [] ∧ '/' ∉ seg ∧ seg ≠ ['.'] ∧ seg ≠ ['.', '.']

/-- A single valid path segment: non-empty, without a slash, neither `.` nor `..`. -/
def ValidSegment (s : String) : Prop := ValidChars s.data

/-- The path made of the given segments, each preceded by a slash. -/
def segPath : List (List Char) → List Char
  | [] => []
  | seg :: segs => '/' :: seg ++ segPath segs

/-- The base path as a prefix: the root alone counts as empty. -/
def basePrefix (p : String) : String := if p = "/" then "" else p

/-- No two slashes in a row. -/
def NoDoubleSlash (p : List Char) : Prop :=
  ∀ i, p[i]? = some '/' → p[i + 1]? ≠ some '/'

/-- A slash at the end only in the root path of a rooted buffer. -/
def EndsClean (rooted : Bool) (p : List Char) : Prop :=
  p.getLast? = some '/' → p = ['/'] ∧ rooted = true

/-- What the main loop of `path.Clean` keeps true of its buffer and of `dotdot`. -/
def CleanInv (rooted : Bool) (out : List Char) (dotdot : Nat) : Prop :=
  NoDoubleSlash out ∧ EndsClean rooted out ∧ EndsClean rooted (out.take dotdot) ∧
    dotdot ≤ out.length

/-- A path without a doubled slash and without a slash at its end. -/
def WellFormedPath (p : String) : Prop :=
  NoDoubleSlash p.data ∧ p.data.getLast? ≠ some '/'

/-! ## A small stand-in for `net/url` and for the transport, used in the examples -/

/-- A reader of `http://host/path` strings, standing in for `url.Parse` in examples. -/
def sampleParse (s : String) : Except GoError URL :=
  match s.data with
  | 'h' :: 't' :: 't' :: 'p' :: ':' :: '/' :: '/' :: rest =>
    .ok { Scheme := "http", Opaque := "", User := none,
          Host := ⟨rest.takeWhile (fun c => c != '/')⟩,
          Path := ⟨rest.dropWhile (fun c => c != '/')⟩,
          RawPath := "", ForceQuery := false, RawQuery := "", Fragment := "" }
  | _ => .error (.external "parse: unsupported URL")

/-- The writer matching `sampleParse`. -/
def sampleNet : NetURL where
  Parse := sampleParse
  URLString u := u.Scheme ++ "://" ++ u.Host ++ u.Path

/-- The URL `http://pairing.test` extended with a path. -/
def sampleURL (path : String) : URL :=
  { Scheme := "http", Opaque := "", User := none, Host := "pairing.test", Path := path,
    RawPath := "", ForceQuery := false, RawQuery := "", Fragment := "" }

/-- A service whose base URL is `http://pairing.test` followed by `path`; nothing has
been called yet. -/
def sampleWorld (path : String) : World Nat :=
  { service := { client := 0, pairingURL := some 0 }, urls := [sampleURL path],
    transport := 0, trace := [] }

/-- A transport that counts its calls and answers every call with the given results. -/
def sampleClient (post : Except GoError Decoder) (del : Option GoError)
    (get : Except GoError Decoder) : Client Nat where
  genericJSONDataAPIPostWithResponse _ _ _ _ n := (post, n + 1)
  genericJSONDataAPIDelete _ _ _ n := (del, n + 1)
  genericJSONDataAPIGET _ _ _ n := (get, n + 1)

/-- A transport whose every call succeeds with the given response body. -/
def replyClient (body : JSON) : Client Nat :=
  sampleClient (.ok ⟨.ok body⟩) none (.ok ⟨.ok body⟩)

/-- A transport whose every call fails with the given error. -/
def failClient (e : GoError) : Client Nat := sampleClient (.error e) (some e) (.error e)




/-! ## Lemmas on the first two statements of an operation -/

theorem newCallURL_of_copiesTo {σ : Type} (net : NetURL) (suffix : String) (w : World σ)
    (u : URL) (h : CopiesTo net w u) :
    newCallURL net suffix w =
      (some w.urls.length,
        { w with urls := w.urls ++ [{ u with Path := Join [u.Path, suffix] }] }) := by
  obtain ⟨base, hb, hp⟩ := h
  simp [newCallURL, hb, hp]

theorem RegisterDevice_of_copiesTo {σ : Type} (net : NetURL) (c : Client σ)
    (realm deviceID token : String) (w : World σ) (u : URL) (h : CopiesTo net w u) :
    RegisterDevice net c realm deviceID token w =
      (let url := requestURL net u (Sprintf ["/v1/", realm, "/agent/devices"])
       let w1 : World σ :=
         { w with urls := w.urls ++ [{ u with Path := Join [u.Path, Sprintf ["/v1/", realm, "/agent/devices"]] }] }
       match w1.postWithResponse c url (Payload.hwID deviceID) token 201 with
       | (.error err, w2) => (.returned ("", some err), w2)
       | (.ok decoder, w2) =>
         match w2.decode decoder (storeResponseBody storeDeviceRegistrationResponse) ⟨⟨""⟩⟩ with
         | (.error err, w3) => (.returned ("", some err), w3)
         | (.ok responseBody, w3) =>
           (.returned (responseBody.Data.CredentialsSecret, none), w3)) := by
  simp [RegisterDevice, newCallURL_of_copiesTo net _ w u h, callURLString, requestURL]

theorem UnregisterDevice_of_copiesTo {σ : Type} (net : NetURL) (c : Client σ)
    (realm deviceID token : String) (w : World σ) (u : URL) (h : CopiesTo net w u) :
    UnregisterDevice net c realm deviceID token w =
      (let suffix := Sprintf ["/v1/", realm, "/agent/devices/", deviceID]
       let w1 : World σ :=
         { w with urls := w.urls ++ [{ u with Path := Join [u.Path, suffix] }] }
       match w1.delete c (requestURL net u suffix) token 204 with
       | (some err, w2) => (.returned (some err), w2)
       | (none, w2) => (.returned none, w2)) := by
  simp [UnregisterDevice, newCallURL_of_copiesTo net _ w u h, callURLString, requestURL]

theorem ObtainNewMQTTv1CertificateForDevice_of_copiesTo {σ : Type} (net : NetURL)
    (c : Client σ) (realm deviceID credentialsSecret csr : String) (w : World σ) (u : URL)
    (h : CopiesTo net w u) :
    ObtainNewMQTTv1CertificateForDevice net c realm deviceID credentialsSecret csr w =
      (let suffix :=
         Sprintf ["/v1/", realm, "/devices/", deviceID, "/protocols/astarte_mqtt_v1/credentials"]
       let w1 : World σ :=
         { w with urls := w.urls ++ [{ u with Path := Join [u.Path, suffix] }] }
       match w1.postWithResponse c (requestURL net u suffix) (Payload.csr csr)
           credentialsSecret 201 with
       | (.error err, w2) => (.returned ("", some err), w2)
       | (.ok decoder, w2) =>
         match w2.decode decoder (storeResponseBody storeGetMQTTv1CertificateResponse)
             ⟨⟨""⟩⟩ with
         | (.error err, w3) => (.returned ("", some err), w3)
         | (.ok responseBody, w3) =>
           (.returned (responseBody.Data.ClientCertificate, none), w3)) := by
  simp [ObtainNewMQTTv1CertificateForDevice, newCallURL_of_copiesTo net _ w u h,
    callURLString, requestURL]

theorem GetMQTTv1ProtocolInformationForDevice_of_copiesTo {σ : Type} (net : NetURL)
    (c : Client σ) (realm deviceID credentialsSecret : String) (w : World σ) (u : URL)
    (h : CopiesTo net w u) :
    GetMQTTv1ProtocolInformationForDevice net c realm deviceID credentialsSecret w =
      (let suffix := Sprintf ["/v1/", realm, "/devices/", deviceID]
       let w1 : World σ :=
         { w with urls := w.urls ++ [{ u with Path := Join [u.Path, suffix] }] }
       match w1.get c (requestURL net u suffix) credentialsSecret 200 with
       | (.error err, w2) => (.returned (⟨""⟩, some err), w2)
       | (.ok decoder, w2) =>
         match w2.decode decoder (storeResponseBody storeGetDeviceProtocolStatusResponse)
             ⟨⟨⟨⟨""⟩⟩⟩⟩ with
         | (.error err, w3) => (.returned (⟨""⟩, some err), w3)
         | (.ok responseBody, w3) =>
           (.returned (responseBody.Data.Protocols.AstarteMQTTv1, none), w3)) := by
  simp [GetMQTTv1ProtocolInformationForDevice, newCallURL_of_copiesTo net _ w u h,
    callURLString, requestURL]

/-- Without a copy of the base URL (`s.pairingURL` is nil, or `url.Parse` rejects its
string form) the operation panics on the nil pointer before any call is made. -/
theorem RegisterDevice_panics {σ : Type} (net : NetURL) (c : Client σ)
    (realm deviceID token : String) (w : World σ)
    (h : ∀ base, w.baseURL = some base → ∃ e, net.Parse (net.URLString base) = .error e) :
    RegisterDevice net c realm deviceID token w = (.panicked, w) := by
  cases hb : w.baseURL with
  | none => simp [RegisterDevice, newCallURL, hb]
  | some base =>
    obtain ⟨e, he⟩ := h base hb
    simp [RegisterDevice, newCallURL, hb, he]

theorem sampleWorld_copiesTo (path : String) (h : sampleParse (sampleNet.URLString (sampleURL path)) = .ok (sampleURL path)) :
    CopiesTo sampleNet (sampleWorld path) (sampleURL path) :=
  ⟨sampleURL path, rfl, h⟩

/-! ## The operations -/

/-- C1: with the per-call copy of the base URL in hand, `RegisterDevice` makes exactly
one call of the transport, a POST-with-response whose body has `hw_id` equal to
`deviceID`, whose credential is `token` and whose expected status is 201; and when
that call succeeds and the response decodes to an envelope, the result is the
`credentials_secret` of the envelope and a nil error. -/
theorem RegisterDevice_contract {σ : Type} (net : NetURL) (c : Client σ)
    (realm deviceID token : String) (w : World σ) (u : URL) (h : CopiesTo net w u) :
    transportCalls (RegisterDevice net c realm deviceID token w).2.trace =
        transportCalls w.trace ++
          [Event.postWithResponse (requestURL net u (Sprintf ["/v1/", realm, "/agent/devices"]))
            (Payload.hwID deviceID) token 201] ∧
      ∀ decoder envelope,
        (c.genericJSONDataAPIPostWithResponse
            (requestURL net u (Sprintf ["/v1/", realm, "/agent/devices"]))
            (Payload.hwID deviceID) token 201 w.transport).1 = .ok decoder →
        decoder.Decode (storeResponseBody storeDeviceRegistrationResponse) ⟨⟨""⟩⟩
            = .ok envelope →
        (RegisterDevice net c realm deviceID token w).1
            = .returned (envelope.Data.CredentialsSecret, none) := by
  rw [RegisterDevice_of_copiesTo net c realm deviceID token w u h]
  simp only [World.postWithResponse, World.decode]
  constructor
  · cases hc : (c.genericJSONDataAPIPostWithResponse
        (requestURL net u (Sprintf ["/v1/", realm, "/agent/devices"]))
        (Payload.hwID deviceID) token 201 w.transport).1 with
    | error e => simp [transportCalls, Event.isTransportCall]
    | ok d =>
      cases hd : d.Decode (storeResponseBody storeDeviceRegistrationResponse) ⟨⟨""⟩⟩ <;>
        simp [hd, transportCalls, Event.isTransportCall]
  · intro decoder envelope hc hd
    simp [hc, hd]

/-- Witness of C1 on a service at `http://pairing.test/api` whose transport answers
`{"data":{"credentials_secret":"s3cr3t"}}`. -/
theorem RegisterDevice_contract_witness :
    CopiesTo sampleNet (sampleWorld "/api") (sampleURL "/api") ∧
      (RegisterDevice sampleNet
          (replyClient (.object [("data", .object [("credentials_secret", .string "s3cr3t")])]))
          "realm" "device" "token" (sampleWorld "/api")).1 = .returned ("s3cr3t", none) :=
  ⟨sampleWorld_copiesTo "/api" rfl,
    (RegisterDevice_contract sampleNet _ "realm" "device" "token" (sampleWorld "/api")
      (sampleURL "/api") (sampleWorld_copiesTo "/api" rfl)).2
      ⟨.ok (.object [("data", .object [("credentials_secret", .string "s3cr3t")])])⟩
      ⟨⟨"s3cr3t"⟩⟩ rfl rfl⟩

/-- C3: with the per-call copy of the base URL in hand, for each of the four operations
and all arguments: an error `e` of the transport call is returned as it is, together
with the zero value of the result, after that one call and without any use of a
decoder; an error `e` of the decoder is returned as it is with the zero value; and a
nil error is returned only when neither of them failed. -/
theorem failures_are_returned {σ : Type} (net : NetURL) (c : Client σ)
    (realm deviceID credential csr : String) (w : World σ) (u : URL) (h : CopiesTo net w u) :
    (∀ e,
        (c.genericJSONDataAPIPostWithResponse
            (requestURL net u (Sprintf ["/v1/", realm, "/agent/devices"]))
            (Payload.hwID deviceID) credential 201 w.transport).1 = .error e →
        (RegisterDevice net c realm deviceID credential w).1 = .returned ("", some e) ∧
          (RegisterDevice net c realm deviceID credential w).2.trace = w.trace ++
            [Event.postWithResponse
              (requestURL net u (Sprintf ["/v1/", realm, "/agent/devices"]))
              (Payload.hwID deviceID) credential 201]) ∧
      (∀ d e,
        (c.genericJSONDataAPIPostWithResponse
            (requestURL net u (Sprintf ["/v1/", realm, "/agent/devices"]))
            (Payload.hwID deviceID) credential 201 w.transport).1 = .ok d →
        d.Decode (storeResponseBody storeDeviceRegistrationResponse) ⟨⟨""⟩⟩ = .error e →
        (RegisterDevice net c realm deviceID credential w).1 = .returned ("", some e)) ∧
      (∀ v,
        (RegisterDevice net c realm deviceID credential w).1 = .returned (v, none) →
        ∃ d r,
          (c.genericJSONDataAPIPostWithResponse
              (requestURL net u (Sprintf ["/v1/", realm, "/agent/devices"]))
              (Payload.hwID deviceID) credential 201 w.transport).1 = .ok d ∧
            d.Decode (storeResponseBody storeDeviceRegistrationResponse) ⟨⟨""⟩⟩ = .ok r) ∧
      (∀ e,
        (c.genericJSONDataAPIDelete
            (requestURL net u (Sprintf ["/v1/", realm, "/agent/devices/", deviceID]))
            credential 204 w.transport).1 = some e →
        (UnregisterDevice net c realm deviceID credential w).1 = .returned (some e) ∧
          (UnregisterDevice net c realm deviceID credential w).2.trace = w.trace ++
            [Event.delete
              (requestURL net u (Sprintf ["/v1/", realm, "/agent/devices/", deviceID]))
              credential 204]) ∧
      ((UnregisterDevice net c realm deviceID credential w).1 = .returned none →
        (c.genericJSONDataAPIDelete
            (requestURL net u (Sprintf ["/v1/", realm, "/agent/devices/", deviceID]))
            credential 204 w.transport).1 = none) ∧
      (∀ e,
        (c.genericJSONDataAPIPostWithResponse
            (requestURL net u (Sprintf ["/v1/", realm, "/devices/", deviceID,
              "/protocols/astarte_mqtt_v1/credentials"]))
            (Payload.csr csr) credential 201 w.transport).1 = .error e →
        (ObtainNewMQTTv1CertificateForDevice net c realm deviceID credential csr w).1
            = .returned ("", some e) ∧
          (ObtainNewMQTTv1CertificateForDevice net c realm deviceID credential csr w).2.trace
            = w.trace ++
              [Event.postWithResponse
                (requestURL net u (Sprintf ["/v1/", realm, "/devices/", deviceID,
                  "/protocols/astarte_mqtt_v1/credentials"]))
                (Payload.csr csr) credential 201]) ∧
      (∀ d e,
        (c.genericJSONDataAPIPostWithResponse
            (requestURL net u (Sprintf ["/v1/", realm, "/devices/", deviceID,
              "/protocols/astarte_mqtt_v1/credentials"]))
            (Payload.csr csr) credential 201 w.transport).1 = .ok d →
        d.Decode (storeResponseBody storeGetMQTTv1CertificateResponse) ⟨⟨""⟩⟩ = .error e →
        (ObtainNewMQTTv1CertificateForDevice net c realm deviceID credential csr w).1
            = .returned ("", some e)) ∧
      (∀ v,
        (ObtainNewMQTTv1CertificateForDevice net c realm deviceID credential csr w).1
            = .returned (v, none) →
        ∃ d r,
          (c.genericJSONDataAPIPostWithResponse
              (requestURL net u (Sprintf ["/v1/", realm, "/devices/", deviceID,
                "/protocols/astarte_mqtt_v1/credentials"]))
              (Payload.csr csr) credential 201 w.transport).1 = .ok d ∧
            d.Decode (storeResponseBody storeGetMQTTv1CertificateResponse) ⟨⟨""⟩⟩ = .ok r) ∧
      (∀ e,
        (c.genericJSONDataAPIGET
            (requestURL net u (Sprintf ["/v1/", realm, "/devices/", deviceID]))
            credential 200 w.transport).1 = .error e →
        (GetMQTTv1ProtocolInformationForDevice net c realm deviceID credential w).1
            = .returned (⟨""⟩, some e) ∧
          (GetMQTTv1ProtocolInformationForDevice net c realm deviceID credential w).2.trace
            = w.trace ++
              [Event.get (requestURL net u (Sprintf ["/v1/", realm, "/devices/", deviceID]))
                credential 200]) ∧
      (∀ d e,
        (c.genericJSONDataAPIGET
            (requestURL net u (Sprintf ["/v1/", realm, "/devices/", deviceID]))
            credential 200 w.transport).1 = .ok d →
        d.Decode (storeResponseBody storeGetDeviceProtocolStatusResponse) ⟨⟨⟨⟨""⟩⟩⟩⟩
            = .error e →
        (GetMQTTv1ProtocolInformationForDevice net c realm deviceID credential w).1
            = .returned (⟨""⟩, some e)) ∧
      (∀ v,
        (GetMQTTv1ProtocolInformationForDevice net c realm deviceID credential w).1
            = .returned (v, none) →
        ∃ d r,
          (c.genericJSONDataAPIGET
              (requestURL net u (Sprintf ["/v1/", realm, "/devices/", deviceID]))
              credential 200 w.transport).1 = .ok d ∧
            d.Decode (storeResponseBody storeGetDeviceProtocolStatusResponse) ⟨⟨⟨⟨""⟩⟩⟩⟩
              = .ok r) := by
  rw [RegisterDevice_of_copiesTo net c realm deviceID credential w u h,
    UnregisterDevice_of_copiesTo net c realm deviceID credential w u h,
    ObtainNewMQTTv1CertificateForDevice_of_copiesTo net c realm deviceID credential csr w u h,
    GetMQTTv1ProtocolInformationForDevice_of_copiesTo net c realm deviceID credential w u h]
  simp only [World.postWithResponse, World.delete, World.get, World.decode]
  refine ⟨?_, ?_, ?_, ?_, ?_, ?_, ?_, ?_, ?_, ?_, ?_⟩
  · intro e he
    simp [he]
  · intro d e hd he
    simp [hd, he]
  · intro v
    cases hc : (c.genericJSONDataAPIPostWithResponse
        (requestURL net u (Sprintf ["/v1/", realm, "/agent/devices"]))
        (Payload.hwID deviceID) credential 201 w.transport).1 with
    | error e => simp
    | ok d =>
      cases hd : d.Decode (storeResponseBody storeDeviceRegistrationResponse) ⟨⟨""⟩⟩ <;>
        simp [hd]
  · intro e he
    simp [he]
  · cases hc : (c.genericJSONDataAPIDelete
        (requestURL net u (Sprintf ["/v1/", realm, "/agent/devices/", deviceID]))
        credential 204 w.transport).1 <;> simp
  · intro e he
    simp [he]
  · intro d e hd he
    simp [hd, he]
  · intro v
    cases hc : (c.genericJSONDataAPIPostWithResponse
        (requestURL net u (Sprintf ["/v1/", realm, "/devices/", deviceID,
          "/protocols/astarte_mqtt_v1/credentials"]))
        (Payload.csr csr) credential 201 w.transport).1 with
    | error e => simp
    | ok d =>
      cases hd : d.Decode (storeResponseBody storeGetMQTTv1CertificateResponse) ⟨⟨""⟩⟩ <;>
        simp [hd]
  · intro e he
    simp [he]
  · intro d e hd he
    simp [hd, he]
  · intro v
    cases hc : (c.genericJSONDataAPIGET
        (requestURL net u (Sprintf ["/v1/", realm, "/devices/", deviceID]))
        credential 200 w.transport).1 with
    | error e => simp
    | ok d =>
      cases hd : d.Decode (storeResponseBody storeGetDeviceProtocolStatusResponse)
          ⟨⟨⟨⟨""⟩⟩⟩⟩ <;>
        simp [hd]

/-- Witness of C3: the transport answers the registration with an error (status 409
where 201 was expected); the error comes back with the empty string after one call. -/
theorem failures_are_returned_witness :
    CopiesTo sampleNet (sampleWorld "/api") (sampleURL "/api") ∧
      (RegisterDevice sampleNet (failClient (.external "unexpected status 409")) "realm"
          "device" "token" (sampleWorld "/api")).1
        = .returned ("", some (.external "unexpected status 409")) ∧
      (RegisterDevice sampleNet (failClient (.external "unexpected status 409")) "realm"
          "device" "token" (sampleWorld "/api")).2.trace
        = [Event.postWithResponse "http://pairing.test/api/v1/realm/agent/devices"
            (Payload.hwID "device") "token" 201] :=
  ⟨sampleWorld_copiesTo "/api" rfl,
    (failures_are_returned sampleNet (failClient (.external "unexpected status 409")) "realm"
      "device" "token" "" (sampleWorld "/api") (sampleURL "/api")
      (sampleWorld_copiesTo "/api" rfl)).1 (.external "unexpected status 409") rfl⟩

/-- C4: with the per-call copy of the base URL in hand, `UnregisterDevice` makes exactly
one call of the transport, a DELETE with credential `token` and expected status 204,
uses no decoder, and returns what that call returned: nil exactly when the call
reported success, the error of the transport otherwise. -/
theorem UnregisterDevice_contract {σ : Type} (net : NetURL) (c : Client σ)
    (realm deviceID token : String) (w : World σ) (u : URL) (h : CopiesTo net w u) :
    (UnregisterDevice net c realm deviceID token w).2.trace = w.trace ++
        [Event.delete
          (requestURL net u (Sprintf ["/v1/", realm, "/agent/devices/", deviceID])) token 204] ∧
      (UnregisterDevice net c realm deviceID token w).1 =
        .returned (c.genericJSONDataAPIDelete
          (requestURL net u (Sprintf ["/v1/", realm, "/agent/devices/", deviceID]))
          token 204 w.transport).1 ∧
      ((UnregisterDevice net c realm deviceID token w).1 = .returned none ↔
        (c.genericJSONDataAPIDelete
          (requestURL net u (Sprintf ["/v1/", realm, "/agent/devices/", deviceID]))
          token 204 w.transport).1 = none) := by
  rw [UnregisterDevice_of_copiesTo net c realm deviceID token w u h]
  simp only [World.delete]
  cases hc : (c.genericJSONDataAPIDelete
      (requestURL net u (Sprintf ["/v1/", realm, "/agent/devices/", deviceID]))
      token 204 w.transport).1 <;> simp

/-- Witness of C4: a transport that reports success, and the one DELETE it received. -/
theorem UnregisterDevice_contract_witness :
    CopiesTo sampleNet (sampleWorld "") (sampleURL "") ∧
      (UnregisterDevice sampleNet (replyClient .null) "realm" "device" "token"
          (sampleWorld "")).2.trace
        = [Event.delete "http://pairing.test/v1/realm/agent/devices/device" "token" 204] ∧
      (UnregisterDevice sampleNet (replyClient .null) "realm" "device" "token"
          (sampleWorld "")).1 = .returned none :=
  ⟨sampleWorld_copiesTo "" rfl,
    (UnregisterDevice_contract sampleNet (replyClient .null) "realm" "device" "token"
      (sampleWorld "") (sampleURL "") (sampleWorld_copiesTo "" rfl)).1,
    (UnregisterDevice_contract sampleNet (replyClient .null) "realm" "device" "token"
      (sampleWorld "") (sampleURL "") (sampleWorld_copiesTo "" rfl)).2.1⟩

/-- C5: with the per-call copy of the base URL in hand,
`ObtainNewMQTTv1CertificateForDevice` makes exactly one call of the transport, a
POST-with-response whose body has `csr` equal to the given `csr`, whose credential is
the given `credentialsSecret` (any string) and whose expected status is 201; when the
call succeeds and the response decodes to an envelope, the result is the `client_crt`
of the envelope and a nil error; the response `{"data":{"client_crt": crt}}` gives
`crt`. -/
theorem ObtainNewMQTTv1CertificateForDevice_contract {σ : Type} (net : NetURL)
    (c : Client σ) (realm deviceID credentialsSecret csr : String) (w : World σ) (u : URL)
    (h : CopiesTo net w u) :
    transportCalls
        (ObtainNewMQTTv1CertificateForDevice net c realm deviceID credentialsSecret csr w).2.trace
        = transportCalls w.trace ++
          [Event.postWithResponse
            (requestURL net u (Sprintf ["/v1/", realm, "/devices/", deviceID,
              "/protocols/astarte_mqtt_v1/credentials"]))
            (Payload.csr csr) credentialsSecret 201] ∧
      (∀ decoder envelope,
        (c.genericJSONDataAPIPostWithResponse
            (requestURL net u (Sprintf ["/v1/", realm, "/devices/", deviceID,
              "/protocols/astarte_mqtt_v1/credentials"]))
            (Payload.csr csr) credentialsSecret 201 w.transport).1 = .ok decoder →
        decoder.Decode (storeResponseBody storeGetMQTTv1CertificateResponse) ⟨⟨""⟩⟩
            = .ok envelope →
        (ObtainNewMQTTv1CertificateForDevice net c realm deviceID credentialsSecret csr w).1
            = .returned (envelope.Data.ClientCertificate, none)) ∧
      (∀ crt,
        (c.genericJSONDataAPIPostWithResponse
            (requestURL net u (Sprintf ["/v1/", realm, "/devices/", deviceID,
              "/protocols/astarte_mqtt_v1/credentials"]))
            (Payload.csr csr) credentialsSecret 201 w.transport).1
          = .ok ⟨.ok (.object [("data", .object [("client_crt", .string crt)])])⟩ →
        (ObtainNewMQTTv1CertificateForDevice net c realm deviceID credentialsSecret csr w).1
            = .returned (crt, none)) := by
  rw [ObtainNewMQTTv1CertificateForDevice_of_copiesTo net c realm deviceID credentialsSecret
    csr w u h]
  simp only [World.postWithResponse, World.decode]
  refine ⟨?_, ?_, ?_⟩
  · cases hc : (c.genericJSONDataAPIPostWithResponse
        (requestURL net u (Sprintf ["/v1/", realm, "/devices/", deviceID,
          "/protocols/astarte_mqtt_v1/credentials"]))
        (Payload.csr csr) credentialsSecret 201 w.transport).1 with
    | error e => simp [transportCalls, Event.isTransportCall]
    | ok d =>
      cases hd : d.Decode (storeResponseBody storeGetMQTTv1CertificateResponse) ⟨⟨""⟩⟩ <;>
        simp [hd, transportCalls, Event.isTransportCall]
  · intro decoder envelope hc hd
    simp [hc, hd]
  · intro crt hc
    have hd : (Decoder.mk (.ok (.object [("data", .object [("client_crt", .string crt)])]))).Decode
        (storeResponseBody storeGetMQTTv1CertificateResponse) ⟨⟨""⟩⟩ = .ok ⟨⟨crt⟩⟩ := rfl
    simp [hc, hd]

/-- Witness of C5: the response `{"data":{"client_crt":"CERT"}}` yields `"CERT"`. -/
theorem ObtainNewMQTTv1CertificateForDevice_contract_witness :
    CopiesTo sampleNet (sampleWorld "/api") (sampleURL "/api") ∧
      (ObtainNewMQTTv1CertificateForDevice sampleNet
          (replyClient (.object [("data", .object [("client_crt", .string "CERT")])]))
          "realm" "device" "secret" "-----BEGIN CERTIFICATE REQUEST-----"
          (sampleWorld "/api")).1 = .returned ("CERT", none) :=
  ⟨sampleWorld_copiesTo "/api" rfl,
    (ObtainNewMQTTv1CertificateForDevice_contract sampleNet
      (replyClient (.object [("data", .object [("client_crt", .string "CERT")])]))
      "realm" "device" "secret" "-----BEGIN CERTIFICATE REQUEST-----" (sampleWorld "/api")
      (sampleURL "/api") (sampleWorld_copiesTo "/api" rfl)).2.2 "CERT" rfl⟩

/-! ## The configuration of the service is left alone -/

theorem newCallURL_frame {σ : Type} (net : NetURL) (suffix : String) (w : World σ) :
    (newCallURL net suffix w).2.service = w.service ∧
      (newCallURL net suffix w).2.baseURL = w.baseURL := by
  cases hb : w.baseURL with
  | none => simp [newCallURL, hb]
  | some base =>
    cases hp : net.Parse (net.URLString base) with
    | error e => simp [newCallURL, hb, hp]
    | ok u =>
      have hs : (newCallURL net suffix w).2.service = w.service := by
        simp [newCallURL, hb, hp]
      refine ⟨hs, ?_⟩
      have hu : (newCallURL net suffix w).2.urls
          = w.urls ++ [{ u with Path := Join [u.Path, suffix] }] := by
        simp [newCallURL, hb, hp]
      unfold World.baseURL at hb ⊢
      rw [hs, hu]
      cases hq : w.service.pairingURL with
      | none =>
        rw [hq] at hb
        simp at hb
      | some p =>
        rw [hq] at hb
        simp only [Option.bind] at hb ⊢
        have hlt : p < w.urls.length := by
          by_contra hge
          rw [List.getElem?_eq_none (by omega)] at hb
          cases hb
        rw [List.getElem?_append_left hlt]
        exact hb

theorem baseURL_congr {σ : Type} (a w : World σ) (hs : a.service = w.service)
    (hu : a.urls = w.urls) : a.baseURL = w.baseURL := by
  unfold World.baseURL
  rw [hs, hu]

theorem RegisterDevice_keeps {σ : Type} (net : NetURL) (c : Client σ)
    (realm deviceID token : String) (w : World σ) :
    (RegisterDevice net c realm deviceID token w).2.service
        = (newCallURL net (Sprintf ["/v1/", realm, "/agent/devices"]) w).2.service ∧
      (RegisterDevice net c realm deviceID token w).2.urls
        = (newCallURL net (Sprintf ["/v1/", realm, "/agent/devices"]) w).2.urls := by
  unfold RegisterDevice
  generalize newCallURL net (Sprintf ["/v1/", realm, "/agent/devices"]) w = r
  obtain ⟨p, w1⟩ := r
  cases p with
  | none => exact ⟨rfl, rfl⟩
  | some callURL =>
    simp only
    cases callURLString net callURL w1 with
    | none => exact ⟨rfl, rfl⟩
    | some url =>
      simp only [World.postWithResponse, World.decode]
      cases hc : (c.genericJSONDataAPIPostWithResponse url (Payload.hwID deviceID) token 201
          w1.transport).1 with
      | error e => exact ⟨rfl, rfl⟩
      | ok d =>
        cases hd : d.Decode (storeResponseBody storeDeviceRegistrationResponse) ⟨⟨""⟩⟩ <;>
          simp [hd]

theorem UnregisterDevice_keeps {σ : Type} (net : NetURL) (c : Client σ)
    (realm deviceID token : String) (w : World σ) :
    (UnregisterDevice net c realm deviceID token w).2.service
        = (newCallURL net (Sprintf ["/v1/", realm, "/agent/devices/", deviceID]) w).2.service ∧
      (UnregisterDevice net c realm deviceID token w).2.urls
        = (newCallURL net (Sprintf ["/v1/", realm, "/agent/devices/", deviceID]) w).2.urls := by
  unfold UnregisterDevice
  generalize newCallURL net (Sprintf ["/v1/", realm, "/agent/devices/", deviceID]) w = r
  obtain ⟨p, w1⟩ := r
  cases p with
  | none => exact ⟨rfl, rfl⟩
  | some callURL =>
    simp only
    cases callURLString net callURL w1 with
    | none => exact ⟨rfl, rfl⟩
    | some url =>
      simp only [World.delete]
      cases hc : (c.genericJSONDataAPIDelete url token 204 w1.transport).1 <;>
        exact ⟨rfl, rfl⟩

theorem ObtainNewMQTTv1CertificateForDevice_keeps {σ : Type} (net : NetURL) (c : Client σ)
    (realm deviceID credentialsSecret csr : String) (w : World σ) :
    (ObtainNewMQTTv1CertificateForDevice net c realm deviceID credentialsSecret csr w).2.service
        = (newCallURL net (Sprintf ["/v1/", realm, "/devices/", deviceID,
            "/protocols/astarte_mqtt_v1/credentials"]) w).2.service ∧
      (ObtainNewMQTTv1CertificateForDevice net c realm deviceID credentialsSecret csr w).2.urls
        = (newCallURL net (Sprintf ["/v1/", realm, "/devices/", deviceID,
            "/protocols/astarte_mqtt_v1/credentials"]) w).2.urls := by
  unfold ObtainNewMQTTv1CertificateForDevice
  generalize newCallURL net (Sprintf ["/v1/", realm, "/devices/", deviceID,
    "/protocols/astarte_mqtt_v1/credentials"]) w = r
  obtain ⟨p, w1⟩ := r
  cases p with
  | none => exact ⟨rfl, rfl⟩
  | some callURL =>
    simp only
    cases callURLString net callURL w1 with
    | none => exact ⟨rfl, rfl⟩
    | some url =>
      simp only [World.postWithResponse, World.decode]
      cases hc : (c.genericJSONDataAPIPostWithResponse url (Payload.csr csr) credentialsSecret
          201 w1.transport).1 with
      | error e => exact ⟨rfl, rfl⟩
      | ok d =>
        cases hd : d.Decode (storeResponseBody storeGetMQTTv1CertificateResponse) ⟨⟨""⟩⟩ <;>
          simp [hd]

theorem GetMQTTv1ProtocolInformationForDevice_keeps {σ : Type} (net : NetURL) (c : Client σ)
    (realm deviceID credentialsSecret : String) (w : World σ) :
    (GetMQTTv1ProtocolInformationForDevice net c realm deviceID credentialsSecret w).2.service
        = (newCallURL net (Sprintf ["/v1/", realm, "/devices/", deviceID]) w).2.service ∧
      (GetMQTTv1ProtocolInformationForDevice net c realm deviceID credentialsSecret w).2.urls
        = (newCallURL net (Sprintf ["/v1/", realm, "/devices/", deviceID]) w).2.urls := by
  unfold GetMQTTv1ProtocolInformationForDevice
  generalize newCallURL net (Sprintf ["/v1/", realm, "/devices/", deviceID]) w = r
  obtain ⟨p, w1⟩ := r
  cases p with
  | none => exact ⟨rfl, rfl⟩
  | some callURL =>
    simp only
    cases callURLString net callURL w1 with
    | none => exact ⟨rfl, rfl⟩
    | some url =>
      simp only [World.get, World.decode]
      cases hc : (c.genericJSONDataAPIGET url credentialsSecret 200 w1.transport).1 with
      | error e => exact ⟨rfl, rfl⟩
      | ok d =>
        cases hd : d.Decode (storeResponseBody storeGetDeviceProtocolStatusResponse)
            ⟨⟨⟨⟨""⟩⟩⟩⟩ <;>
          simp [hd]

/-- C8: every operation of `PairingService`, with any arguments and whether it returns
a value, an error or panics, leaves the struct of the service (both pointers, the
transport reference among them) and the URL value `s.pairingURL` points to (every
field, its path among them) as they were: the only URL written to is the one allocated
by the call. -/
theorem configuration_unchanged {σ : Type} (net : NetURL) (c : Client σ)
    (realm deviceID credential csr : String) (w : World σ) :
    ((RegisterDevice net c realm deviceID credential w).2.service = w.service ∧
        (RegisterDevice net c realm deviceID credential w).2.baseURL = w.baseURL) ∧
      ((UnregisterDevice net c realm deviceID credential w).2.service = w.service ∧
        (UnregisterDevice net c realm deviceID credential w).2.baseURL = w.baseURL) ∧
      ((ObtainNewMQTTv1CertificateForDevice net c realm deviceID credential csr w).2.service
          = w.service ∧
        (ObtainNewMQTTv1CertificateForDevice net c realm deviceID credential csr w).2.baseURL
          = w.baseURL) ∧
      ((GetMQTTv1ProtocolInformationForDevice net c realm deviceID credential w).2.service
          = w.service ∧
        (GetMQTTv1ProtocolInformationForDevice net c realm deviceID credential w).2.baseURL
          = w.baseURL) := by
  refine ⟨?_, ?_, ?_, ?_⟩
  · have hk := RegisterDevice_keeps net c realm deviceID credential w
    have hf := newCallURL_frame net (Sprintf ["/v1/", realm, "/agent/devices"]) w
    exact ⟨hk.1.trans hf.1, (baseURL_congr _ _ hk.1 hk.2).trans hf.2⟩
  · have hk := UnregisterDevice_keeps net c realm deviceID credential w
    have hf := newCallURL_frame net (Sprintf ["/v1/", realm, "/agent/devices/", deviceID]) w
    exact ⟨hk.1.trans hf.1, (baseURL_congr _ _ hk.1 hk.2).trans hf.2⟩
  · have hk := ObtainNewMQTTv1CertificateForDevice_keeps net c realm deviceID credential csr w
    have hf := newCallURL_frame net (Sprintf ["/v1/", realm, "/devices/", deviceID,
      "/protocols/astarte_mqtt_v1/credentials"]) w
    exact ⟨hk.1.trans hf.1, (baseURL_congr _ _ hk.1 hk.2).trans hf.2⟩
  · have hk := GetMQTTv1ProtocolInformationForDevice_keeps net c realm deviceID credential w
    have hf := newCallURL_frame net (Sprintf ["/v1/", realm, "/devices/", deviceID]) w
    exact ⟨hk.1.trans hf.1, (baseURL_congr _ _ hk.1 hk.2).trans hf.2⟩

/-! ## Decoding of the response envelopes -/

theorem objectInto_filter {α : Type} (tag : String) (store : JSON → α → Except GoError α)
    (ms : List (String × JSON)) (v : α) :
    objectInto tag store ms v
      = objectInto tag store (ms.filter (fun m => keyMatches tag m.1)) v := by
  induction ms generalizing v with
  | nil => rfl
  | cons m ms ih =>
    obtain ⟨key, item⟩ := m
    by_cases hk : keyMatches tag key = true
    · simp only [objectInto, hk, if_true, List.filter_cons]
      cases store item v with
      | error e => rfl
      | ok v1 => exact ih v1
    · simp only [objectInto, hk, List.filter_cons]
      exact ih v

theorem objectInto_unchanged {α : Type} (tag : String) (store : JSON → α → Except GoError α)
    (ms : List (String × JSON)) (v : α)
    (h : ∀ m ∈ ms, keyMatches tag m.1 = true → store m.2 v = .ok v) :
    objectInto tag store ms v = .ok v := by
  induction ms with
  | nil => rfl
  | cons m ms ih =>
    obtain ⟨key, item⟩ := m
    have ih1 := ih (fun m hm => h m (List.mem_cons_of_mem _ hm))
    by_cases hk : keyMatches tag key = true
    · have h1 := h (key, item) (List.mem_cons_self _ _) hk
      simp only at h1
      simp only [objectInto, hk, if_true, h1]
      exact ih1
    · simp only [objectInto, hk]
      exact ih1

theorem objectInto_congr_member {α : Type} (tag : String)
    (store : JSON → α → Except GoError α) (before after : List (String × JSON))
    (key : String) (x y : JSON) (h : ∀ v, store x v = store y v) (v : α) :
    objectInto tag store (before ++ [(key, x)] ++ after) v
      = objectInto tag store (before ++ [(key, y)] ++ after) v := by
  induction before generalizing v with
  | nil =>
    by_cases hk : keyMatches tag key = true
    · simp only [List.nil_append, List.singleton_append, objectInto, hk, if_true, h v]
    · simp [objectInto, hk]
  | cons m ms ih =>
    obtain ⟨k, item⟩ := m
    by_cases hk : keyMatches tag k = true
    · simp only [List.cons_append, objectInto, hk, if_true]
      cases store item v with
      | error e => rfl
      | ok v1 => simpa using ih v1
    · simp only [List.cons_append, objectInto, hk]
      simpa using ih v

theorem intoField_congr {α β : Type} (get : α → β) (set : α → β → α)
    (store : JSON → β → Except GoError β) (x y : JSON) (h : ∀ b, store x b = store y b)
    (v : α) : intoField get set store x v = intoField get set store y v := by
  simp only [intoField, h]

theorem storeDeviceProtocols_filter (ps : List (String × JSON)) (v : deviceProtocols) :
    storeDeviceProtocols (.object ps) v
      = storeDeviceProtocols
          (.object (ps.filter (fun m => keyMatches "astarte_mqtt_v1" m.1))) v := by
  simp only [storeDeviceProtocols, structValue]
  exact objectInto_filter _ _ ps v

theorem storeDeviceRegistrationResponse_missing (m : JSON) (v : deviceRegistrationResponse)
    (h : m = .null ∨
      ∃ ds, m = .object ds ∧ ∀ d ∈ ds, keyMatches "credentials_secret" d.1 = false) :
    storeDeviceRegistrationResponse m v = .ok v := by
  rcases h with h | ⟨ds, h, hd⟩
  · subst h
    rfl
  · subst h
    simp only [storeDeviceRegistrationResponse, structValue]
    apply objectInto_unchanged
    intro d hmem hk
    rw [hd d hmem] at hk
    cases hk

/-- C2, counterexample: the transport call succeeds and the response body is `{}`;
`RegisterDevice` returns the empty string and a nil error, not a decoding error. -/
theorem RegisterDevice_empty_object_no_error :
    (RegisterDevice sampleNet (replyClient (.object [])) "realm" "device" "token"
        (sampleWorld "/api")).1 = .returned ("", none) ∧
      ¬ ∃ e, (RegisterDevice sampleNet (replyClient (.object [])) "realm" "device" "token"
        (sampleWorld "/api")).1 = .returned ("", some e) := by
  have h : (RegisterDevice sampleNet (replyClient (.object [])) "realm" "device" "token"
      (sampleWorld "/api")).1 = .returned ("", none) := rfl
  refine ⟨h, ?_⟩
  rintro ⟨e, he⟩
  rw [h] at he
  cases he

/-- C2, as amended: when the transport call succeeds, `RegisterDevice` returns a non-nil
error (and the empty string) exactly when the decoder fails, in particular when the
body cannot be read as a JSON value.  When the body is the object `{}`, or more
generally an object in which every member whose key is `data` or equal to it up to
letter case is `null` or an object with no member whose key is `credentials_secret` or
equal to it up to letter case, it returns the empty string and a nil error. -/
theorem RegisterDevice_decoding {σ : Type} (net : NetURL) (c : Client σ)
    (realm deviceID token : String) (w : World σ) (u : URL) (h : CopiesTo net w u)
    (decoder : Decoder)
    (hc : (c.genericJSONDataAPIPostWithResponse
        (requestURL net u (Sprintf ["/v1/", realm, "/agent/devices"]))
        (Payload.hwID deviceID) token 201 w.transport).1 = .ok decoder) :
    (∀ e, (RegisterDevice net c realm deviceID token w).1 = .returned ("", some e) ↔
        decoder.Decode (storeResponseBody storeDeviceRegistrationResponse) ⟨⟨""⟩⟩ = .error e) ∧
      (∀ e, decoder.next = .error e →
        (RegisterDevice net c realm deviceID token w).1 = .returned ("", some e)) ∧
      (∀ ms, decoder.next = .ok (.object ms) →
        (∀ m ∈ ms, keyMatches "data" m.1 = true →
          m.2 = .null ∨
            ∃ ds, m.2 = .object ds ∧ ∀ d ∈ ds, keyMatches "credentials_secret" d.1 = false) →
        (RegisterDevice net c realm deviceID token w).1 = .returned ("", none)) ∧
      (decoder.next = .ok (.object []) →
        (RegisterDevice net c realm deviceID token w).1 = .returned ("", none)) := by
  rw [RegisterDevice_of_copiesTo net c realm deviceID token w u h]
  simp only [World.postWithResponse, World.decode, hc]
  refine ⟨?_, ?_, ?_, ?_⟩
  · intro e
    cases hd : decoder.Decode (storeResponseBody storeDeviceRegistrationResponse) ⟨⟨""⟩⟩ <;>
      simp
  · intro e he
    have hd : decoder.Decode (storeResponseBody storeDeviceRegistrationResponse) ⟨⟨""⟩⟩
        = .error e := by
      simp [Decoder.Decode, he]
    simp [hd]
  · intro ms hn hms
    have hd : decoder.Decode (storeResponseBody storeDeviceRegistrationResponse) ⟨⟨""⟩⟩
        = .ok ⟨⟨""⟩⟩ := by
      simp only [Decoder.Decode, hn, storeResponseBody, structValue]
      apply objectInto_unchanged
      intro m hm hk
      simp only [intoField, storeDeviceRegistrationResponse_missing m.2 ⟨""⟩ (hms m hm hk)]
    simp [hd]
  · intro hn
    have hd : decoder.Decode (storeResponseBody storeDeviceRegistrationResponse) ⟨⟨""⟩⟩
        = .ok ⟨⟨""⟩⟩ := by
      simp only [Decoder.Decode, hn, storeResponseBody, structValue, objectInto]
    simp [hd]

/-- Witness of C2 as amended: the body `{"data":{}}` lacks `credentials_secret`. -/
theorem RegisterDevice_decoding_witness :
    CopiesTo sampleNet (sampleWorld "/api") (sampleURL "/api") ∧
      (RegisterDevice sampleNet (replyClient (.object [("data", .object [])])) "realm"
        "device" "token" (sampleWorld "/api")).1 = .returned ("", none) :=
  ⟨sampleWorld_copiesTo "/api" rfl,
    (RegisterDevice_decoding sampleNet (replyClient (.object [("data", .object [])])) "realm"
      "device" "token" (sampleWorld "/api") (sampleURL "/api")
      (sampleWorld_copiesTo "/api" rfl) ⟨.ok (.object [("data", .object [])])⟩ rfl).2.2.1
      [("data", .object [])] rfl
      (by
        intro m hm _
        simp only [List.mem_singleton] at hm
        subst hm
        exact Or.inr ⟨[], rfl, by simp⟩)⟩

theorem storeResponseBody_protocols_congr (top1 top2 data1 data2 : List (String × JSON))
    (dataKey protocolsKey : String) (ps1 ps2 : List (String × JSON))
    (hps : ps1.filter (fun m => keyMatches "astarte_mqtt_v1" m.1)
      = ps2.filter (fun m => keyMatches "astarte_mqtt_v1" m.1))
    (v : responseBody getDeviceProtocolStatusResponse) :
    storeResponseBody storeGetDeviceProtocolStatusResponse
        (.object (top1 ++ [(dataKey,
          .object (data1 ++ [(protocolsKey, .object ps1)] ++ data2))] ++ top2)) v
      = storeResponseBody storeGetDeviceProtocolStatusResponse
        (.object (top1 ++ [(dataKey,
          .object (data1 ++ [(protocolsKey, .object ps2)] ++ data2))] ++ top2)) v := by
  have h1 : ∀ b, storeDeviceProtocols (.object ps1) b = storeDeviceProtocols (.object ps2) b := by
    intro b
    rw [storeDeviceProtocols_filter ps1, storeDeviceProtocols_filter ps2, hps]
  have h2 : ∀ b, storeGetDeviceProtocolStatusResponse
        (.object (data1 ++ [(protocolsKey, .object ps1)] ++ data2)) b
      = storeGetDeviceProtocolStatusResponse
        (.object (data1 ++ [(protocolsKey, .object ps2)] ++ data2)) b := by
    intro b
    simp only [storeGetDeviceProtocolStatusResponse, structValue]
    exact objectInto_congr_member _ _ data1 data2 protocolsKey _ _
      (fun x => intoField_congr _ _ _ _ _ h1 x) b
  simp only [storeResponseBody, structValue]
  exact objectInto_congr_member _ _ top1 top2 dataKey _ _
    (fun x => intoField_congr _ _ _ _ _ h2 x) v

/-- C6, counterexample: two successful responses with the same entry under the key
`astarte_mqtt_v1`; the second has one more entry, under the key `ASTARTE_MQTT_V1`.
The results differ: the decoder takes the second key for the same field. -/
theorem GetMQTTv1ProtocolInformationForDevice_other_entry_not_ignored :
    ([("astarte_mqtt_v1", JSON.object [("broker_url", .string "ssl://x:8883")]),
        ("ASTARTE_MQTT_V1", JSON.object [("broker_url", .string "ssl://y:8883")])].filter
          (fun m => m.1 == "astarte_mqtt_v1")
        = [("astarte_mqtt_v1", JSON.object [("broker_url", .string "ssl://x:8883")])]) ∧
      (GetMQTTv1ProtocolInformationForDevice sampleNet
          (replyClient (.object [("data", .object [("protocols", .object
            [("astarte_mqtt_v1", .object [("broker_url", .string "ssl://x:8883")])])])]))
          "realm" "device" "secret" (sampleWorld "/api")).1
        = .returned (⟨"ssl://x:8883"⟩, none) ∧
      (GetMQTTv1ProtocolInformationForDevice sampleNet
          (replyClient (.object [("data", .object [("protocols", .object
            [("astarte_mqtt_v1", .object [("broker_url", .string "ssl://x:8883")]),
              ("ASTARTE_MQTT_V1", .object [("broker_url", .string "ssl://y:8883")])])])]))
          "realm" "device" "secret" (sampleWorld "/api")).1
        = .returned (⟨"ssl://y:8883"⟩, none) :=
  ⟨rfl, rfl, rfl⟩

/-- C6, as amended: with the per-call copy of the base URL in hand,
`GetMQTTv1ProtocolInformationForDevice` makes exactly one call of the transport, a GET
with the given credential and expected status 200; on success it returns the
`Data.Protocols.AstarteMQTTv1` of the decoded envelope; two successful responses that
differ only inside the `protocols` object, and there only in entries whose key the
decoder does not take for `astarte_mqtt_v1` (neither equal to it nor equal up to
letter case), give the same result; `broker_url` equal to `b` in the response gives a
result whose broker URL is `b`. -/
theorem GetMQTTv1ProtocolInformationForDevice_contract {σ : Type} (net : NetURL)
    (c : Client σ) (realm deviceID credentialsSecret : String) (w : World σ) (u : URL)
    (h : CopiesTo net w u) :
    transportCalls
        (GetMQTTv1ProtocolInformationForDevice net c realm deviceID credentialsSecret w).2.trace
        = transportCalls w.trace ++
          [Event.get (requestURL net u (Sprintf ["/v1/", realm, "/devices/", deviceID]))
            credentialsSecret 200] ∧
      (∀ decoder envelope,
        (c.genericJSONDataAPIGET
            (requestURL net u (Sprintf ["/v1/", realm, "/devices/", deviceID]))
            credentialsSecret 200 w.transport).1 = .ok decoder →
        decoder.Decode (storeResponseBody storeGetDeviceProtocolStatusResponse) ⟨⟨⟨⟨""⟩⟩⟩⟩
            = .ok envelope →
        (GetMQTTv1ProtocolInformationForDevice net c realm deviceID credentialsSecret w).1
            = .returned (envelope.Data.Protocols.AstarteMQTTv1, none)) ∧
      (∀ (c2 : Client σ) (top1 top2 data1 data2 : List (String × JSON))
          (dataKey protocolsKey : String) (ps1 ps2 : List (String × JSON)),
        ps1.filter (fun m => keyMatches "astarte_mqtt_v1" m.1)
          = ps2.filter (fun m => keyMatches "astarte_mqtt_v1" m.1) →
        (c.genericJSONDataAPIGET
            (requestURL net u (Sprintf ["/v1/", realm, "/devices/", deviceID]))
            credentialsSecret 200 w.transport).1
          = .ok ⟨.ok (.object (top1 ++ [(dataKey,
              .object (data1 ++ [(protocolsKey, .object ps1)] ++ data2))] ++ top2))⟩ →
        (c2.genericJSONDataAPIGET
            (requestURL net u (Sprintf ["/v1/", realm, "/devices/", deviceID]))
            credentialsSecret 200 w.transport).1
          = .ok ⟨.ok (.object (top1 ++ [(dataKey,
              .object (data1 ++ [(protocolsKey, .object ps2)] ++ data2))] ++ top2))⟩ →
        (GetMQTTv1ProtocolInformationForDevice net c realm deviceID credentialsSecret w).1
          = (GetMQTTv1ProtocolInformationForDevice net c2 realm deviceID credentialsSecret
              w).1) ∧
      (∀ b,
        (c.genericJSONDataAPIGET
            (requestURL net u (Sprintf ["/v1/", realm, "/devices/", deviceID]))
            credentialsSecret 200 w.transport).1
          = .ok ⟨.ok (.object [("data", .object [("protocols", .object
              [("astarte_mqtt_v1", .object [("broker_url", .string b)])])])])⟩ →
        (GetMQTTv1ProtocolInformationForDevice net c realm deviceID credentialsSecret w).1
          = .returned (⟨b⟩, none)) := by
  refine ⟨?_, ?_, ?_, ?_⟩
  · rw [GetMQTTv1ProtocolInformationForDevice_of_copiesTo net c realm deviceID
      credentialsSecret w u h]
    simp only [World.get, World.decode]
    cases hc : (c.genericJSONDataAPIGET
        (requestURL net u (Sprintf ["/v1/", realm, "/devices/", deviceID]))
        credentialsSecret 200 w.transport).1 with
    | error e => simp [transportCalls, Event.isTransportCall]
    | ok d =>
      cases hd : d.Decode (storeResponseBody storeGetDeviceProtocolStatusResponse)
          ⟨⟨⟨⟨""⟩⟩⟩⟩ <;>
        simp [hd, transportCalls, Event.isTransportCall]
  · intro decoder envelope hc hd
    rw [GetMQTTv1ProtocolInformationForDevice_of_copiesTo net c realm deviceID
      credentialsSecret w u h]
    simp [World.get, World.decode, hc, hd]
  · intro c2 top1 top2 data1 data2 dataKey protocolsKey ps1 ps2 hps hc1 hc2
    rw [GetMQTTv1ProtocolInformationForDevice_of_copiesTo net c realm deviceID
      credentialsSecret w u h,
      GetMQTTv1ProtocolInformationForDevice_of_copiesTo net c2 realm deviceID
      credentialsSecret w u h]
    simp only [World.get, World.decode, hc1, hc2, Decoder.Decode]
    rw [storeResponseBody_protocols_congr top1 top2 data1 data2 dataKey protocolsKey ps1 ps2
      hps]
    cases storeResponseBody storeGetDeviceProtocolStatusResponse
        (.object (top1 ++ [(dataKey,
          .object (data1 ++ [(protocolsKey, .object ps2)] ++ data2))] ++ top2))
        ⟨⟨⟨⟨""⟩⟩⟩⟩ <;> rfl
  · intro b hc
    rw [GetMQTTv1ProtocolInformationForDevice_of_copiesTo net c realm deviceID
      credentialsSecret w u h]
    have hd : (Decoder.mk (.ok (.object [("data", .object [("protocols", .object
        [("astarte_mqtt_v1", .object [("broker_url", .string b)])])])]))).Decode
        (storeResponseBody storeGetDeviceProtocolStatusResponse) ⟨⟨⟨⟨""⟩⟩⟩⟩
        = .ok ⟨⟨⟨⟨b⟩⟩⟩⟩ := rfl
    simp [World.get, World.decode, hc, hd]

/-- Witness of C6 as amended: `broker_url` equal to `ssl://x:8883` in the response. -/
theorem GetMQTTv1ProtocolInformationForDevice_contract_witness :
    CopiesTo sampleNet (sampleWorld "/api") (sampleURL "/api") ∧
      (GetMQTTv1ProtocolInformationForDevice sampleNet
          (replyClient (.object [("data", .object [("protocols", .object
            [("astarte_mqtt_v1", .object [("broker_url", .string "ssl://x:8883")])])])]))
          "realm" "device" "secret" (sampleWorld "/api")).1
        = .returned (⟨"ssl://x:8883"⟩, none) :=
  ⟨sampleWorld_copiesTo "/api" rfl,
    (GetMQTTv1ProtocolInformationForDevice_contract sampleNet
      (replyClient (.object [("data", .object [("protocols", .object
        [("astarte_mqtt_v1", .object [("broker_url", .string "ssl://x:8883")])])])]))
      "realm" "device" "secret" (sampleWorld "/api") (sampleURL "/api")
      (sampleWorld_copiesTo "/api" rfl)).2.2.2 "ssl://x:8883" rfl⟩

/-! ## `path.Clean` and `path.Join` -/

theorem atElemEnd_append_slash (xs ys : List Char) :
    atElemEnd (xs ++ '/' :: ys) = atElemEnd xs := by
  cases xs <;> simp [atElemEnd]

theorem cleanLoop_copy_slash (r : Bool) (rest out : List Char) (dd : Nat) :
    cleanLoop r true ('/' :: rest) out dd = cleanLoop r false rest out dd := by
  rw [cleanLoop.eq_def]
  simp

theorem cleanLoop_copy_char (r : Bool) (c : Char) (rest out : List Char) (dd : Nat)
    (hc : c ≠ '/') :
    cleanLoop r true (c :: rest) out dd = cleanLoop r true rest (out ++ [c]) dd := by
  rw [cleanLoop.eq_def]
  simp [hc]

theorem cleanLoop_slash (r : Bool) (rest out : List Char) (dd : Nat) :
    cleanLoop r false ('/' :: rest) out dd = cleanLoop r false rest out dd := by
  rw [cleanLoop.eq_def]
  simp

theorem cleanLoop_dot (r : Bool) (rest out : List Char) (dd : Nat)
    (h : atElemEnd rest = true) :
    cleanLoop r false ('.' :: rest) out dd = cleanLoop r false rest out dd := by
  rw [cleanLoop.eq_def]
  simp [h]

theorem cleanLoop_dotdot (r : Bool) (tail out : List Char) (dd : Nat)
    (h : atElemEnd tail = true) :
    cleanLoop r false ('.' :: '.' :: tail) out dd
      = cleanLoop r false tail (dotdotStep r out dd).1 (dotdotStep r out dd).2 := by
  have h0 : atElemEnd ('.' :: tail) = false := by simp [atElemEnd]
  rw [cleanLoop.eq_def]
  simp [h, h0]

theorem cleanLoop_elem_last (r : Bool) (c : Char) (out : List Char) (dd : Nat)
    (hc : c ≠ '/') (hd : c ≠ '.') :
    cleanLoop r false [c] out dd = cleanLoop r true [] (addSlash r out ++ [c]) dd := by
  rw [cleanLoop.eq_def]
  simp [hc, hd]

theorem cleanLoop_elem (r : Bool) (c d : Char) (tail out : List Char) (dd : Nat)
    (hc : c ≠ '/') (h1 : ¬ (c = '.' ∧ atElemEnd (d :: tail) = true))
    (h2 : ¬ (c = '.' ∧ d = '.' ∧ atElemEnd tail = true)) :
    cleanLoop r false (c :: d :: tail) out dd
      = cleanLoop r true (d :: tail) (addSlash r out ++ [c]) dd := by
  rw [cleanLoop.eq_def]
  simp only [hc, h1, h2, if_false]

/-- Reading up to a slash and going on after it is reading the whole. -/
theorem cleanLoop_append_slash (r : Bool) (m : Bool) (xs out : List Char) (dd : Nat)
    (ys : List Char) :
    cleanLoop r m (xs ++ '/' :: ys) out dd
      = cleanLoop r false ys (cleanLoop r m xs out dd).1 (cleanLoop r m xs out dd).2 := by
  induction m, xs, out, dd using cleanLoop.induct r with
  | case1 m out dd =>
    cases m
    · rw [List.nil_append, cleanLoop_slash, cleanLoop.eq_1]
    · rw [List.nil_append, cleanLoop_copy_slash, cleanLoop.eq_1]
  | case2 rest out dd ih =>
    rw [List.cons_append, cleanLoop_copy_slash, cleanLoop_copy_slash, ih]
  | case3 c rest out dd hc ih =>
    rw [List.cons_append, cleanLoop_copy_char _ _ _ _ _ hc, cleanLoop_copy_char _ _ _ _ _ hc, ih]
  | case4 rest out dd ih =>
    rw [List.cons_append, cleanLoop_slash, cleanLoop_slash, ih]
  | case5 c rest out dd hc hdot ih =>
    obtain ⟨hc1, hend⟩ := hdot
    subst hc1
    rw [List.cons_append, cleanLoop_dot _ _ _ _ (by rw [atElemEnd_append_slash]; exact hend),
      cleanLoop_dot _ _ _ _ hend, ih]
  | case6 c out dd hc hdot ih =>
    have hd : c ≠ '.' := by
      intro h
      exact hdot ⟨h, rfl⟩
    rw [cleanLoop_elem_last _ _ _ _ hc hd]
    rw [List.singleton_append, cleanLoop_elem _ _ _ _ _ _ hc (by simp [hd]) (by simp [hd]),
      cleanLoop_copy_slash, cleanLoop.eq_1]
  | case7 c out dd hc d tail hdd hnd ih =>
    obtain ⟨h1, h2, h3⟩ := hdd
    subst h1
    subst h2
    rw [List.cons_append, List.cons_append,
      cleanLoop_dotdot _ _ _ _ (by rw [atElemEnd_append_slash]; exact h3),
      cleanLoop_dotdot _ _ _ _ h3, ih]
  | case8 c out dd hc d tail hndd hnd ih =>
    rw [List.cons_append, List.cons_append,
      cleanLoop_elem _ _ _ _ _ _ hc (by simpa [atElemEnd] using hnd)
        (by rw [atElemEnd_append_slash]; exact hndd),
      cleanLoop_elem _ _ _ _ _ _ hc hnd hndd]
    rw [← List.cons_append, ih]

theorem cleanLoop_copy (r : Bool) (xs out : List Char) (dd : Nat) (h : '/' ∉ xs) :
    cleanLoop r true xs out dd = (out ++ xs, dd) := by
  induction xs generalizing out with
  | nil => simp [cleanLoop.eq_1]
  | cons c rest ih =>
    have hc : c ≠ '/' := fun hc => h (hc ▸ List.mem_cons_self _ _)
    rw [cleanLoop_copy_char _ _ _ _ _ hc, ih _ (fun hm => h (List.mem_cons_of_mem _ hm))]
    simp

/-- A real path element: a slash if needed, then the element. -/
theorem cleanLoop_segment (r : Bool) (seg out : List Char) (dd : Nat)
    (hne : seg ≠ []) (hs : '/' ∉ seg) (h1 : seg ≠ ['.']) (h2 : seg ≠ ['.', '.']) :
    cleanLoop r false seg out dd = (addSlash r out ++ seg, dd) := by
  cases seg with
  | nil => exact absurd rfl hne
  | cons c rest =>
    have hc : c ≠ '/' := fun hc => hs (hc ▸ List.mem_cons_self _ _)
    have hrest : '/' ∉ rest := fun hm => hs (List.mem_cons_of_mem _ hm)
    cases rest with
    | nil =>
      have hd : c ≠ '.' := fun hd => h1 (by rw [hd])
      rw [cleanLoop_elem_last _ _ _ _ hc hd, cleanLoop.eq_1]
    | cons d tail =>
      have hdne : d ≠ '/' := fun hd => hrest (hd ▸ List.mem_cons_self _ _)
      have htail : '/' ∉ tail := fun hm => hrest (List.mem_cons_of_mem _ hm)
      have e1 : ¬ (c = '.' ∧ atElemEnd (d :: tail) = true) := by
        simp [atElemEnd, hdne]
      have e2 : ¬ (c = '.' ∧ d = '.' ∧ atElemEnd tail = true) := by
        rintro ⟨hc1, hd1, hend⟩
        cases tail with
        | nil => exact h2 (by rw [hc1, hd1])
        | cons t ts =>
          have ht : t = '/' := by simpa [atElemEnd] using hend
          exact htail (ht ▸ List.mem_cons_self _ _)
      rw [cleanLoop_elem _ _ _ _ _ _ hc e1 e2, cleanLoop_copy _ _ _ _ hrest]
      simp

theorem segPath_ne_nil (seg : List Char) (segs : List (List Char)) :
    segPath (seg :: segs) = '/' :: (seg ++ segPath segs) := rfl

/-- Reading a sequence of real elements into a rooted buffer that already holds more
than the leading slash appends them as they are. -/
theorem cleanLoop_segPath (segs : List (List Char)) (out : List Char) (dd : Nat)
    (hv : ∀ seg ∈ segs, ValidChars seg) (hout : 2 ≤ out.length) :
    cleanLoop true false (segPath segs) out dd = (out ++ segPath segs, dd) := by
  induction segs generalizing out with
  | nil => simp [segPath, cleanLoop.eq_1]
  | cons seg segs ih =>
    obtain ⟨hne, hs, h1, h2⟩ := hv seg (List.mem_cons_self _ _)
    have hadd : addSlash true out = out ++ ['/'] := by
      have : out.length ≠ 1 := by omega
      simp [addSlash, this]
    rw [segPath_ne_nil, cleanLoop_slash]
    cases segs with
    | nil =>
      rw [segPath, List.append_nil, cleanLoop_segment _ _ _ _ hne hs h1 h2, hadd]
      simp
    | cons seg2 segs2 =>
      rw [segPath_ne_nil, cleanLoop_append_slash, cleanLoop_segment _ _ _ _ hne hs h1 h2, hadd]
      simp only
      have ih1 := ih (out ++ ['/'] ++ seg)
        (fun s hs => hv s (List.mem_cons_of_mem _ hs)) (by simp; omega)
      rw [segPath_ne_nil, cleanLoop_slash] at ih1
      rw [ih1]
      simp

/-- Reading a sequence of real elements into a rooted buffer that holds the leading
slash only gives the elements separated by single slashes. -/
theorem cleanLoop_segPath_root (seg : List Char) (segs : List (List Char)) (dd : Nat)
    (hv : ∀ s ∈ seg :: segs, ValidChars s) :
    cleanLoop true false (segPath (seg :: segs)) ['/'] dd = (segPath (seg :: segs), dd) := by
  obtain ⟨hne, hs, h1, h2⟩ := hv seg (List.mem_cons_self _ _)
  have hadd : addSlash true ['/'] = ['/'] := by simp [addSlash]
  rw [segPath_ne_nil, cleanLoop_slash]
  cases segs with
  | nil =>
    rw [segPath, List.append_nil, cleanLoop_segment _ _ _ _ hne hs h1 h2, hadd]
    simp
  | cons seg2 segs2 =>
    rw [segPath_ne_nil, cleanLoop_append_slash, cleanLoop_segment _ _ _ _ hne hs h1 h2, hadd]
    simp only
    have hlen : 2 ≤ (['/'] ++ seg).length := by
      cases seg with
      | nil => exact absurd rfl hne
      | cons c cs => simp
    have ih1 := cleanLoop_segPath (seg2 :: segs2) (['/'] ++ seg) dd
      (fun s hs => hv s (List.mem_cons_of_mem _ hs)) hlen
    rw [segPath_ne_nil, cleanLoop_slash] at ih1
    rw [ih1]
    simp

/-- Cleaning a path made of real elements changes nothing. -/
theorem cleanChars_segPath (seg : List Char) (segs : List (List Char))
    (hv : ∀ s ∈ seg :: segs, ValidChars s) :
    cleanChars (segPath (seg :: segs)) = segPath (seg :: segs) := by
  have h := cleanLoop_segPath_root seg segs 1 hv
  rw [segPath_ne_nil, cleanLoop_slash] at h
  rw [segPath_ne_nil]
  simp only [cleanChars, if_true, h]
  simp

/-- Cleaning a clean rooted path followed by a slash and a path made of real elements:
the two are put together, the root being dropped when the first is the root alone. -/
theorem cleanChars_append_segPath (base : List Char) (seg : List Char)
    (segs : List (List Char)) (hclean : cleanChars ('/' :: base) = '/' :: base)
    (hv : ∀ s ∈ seg :: segs, ValidChars s) :
    cleanChars (('/' :: base) ++ '/' :: segPath (seg :: segs))
      = (if base = [] then [] else '/' :: base) ++ segPath (seg :: segs) := by
  have hout : (cleanLoop true false base ['/'] 1).1 = '/' :: base := by
    simp only [cleanChars, if_true] at hclean
    by_cases h0 : (cleanLoop true false base ['/'] 1).1.length = 0
    · rw [if_pos h0] at hclean
      simp at hclean
    · rw [if_neg h0] at hclean
      exact hclean
  simp only [cleanChars, List.cons_append, if_true]
  rw [cleanLoop_append_slash, hout]
  by_cases hb : base = []
  · subst hb
    rw [cleanLoop_segPath_root seg segs _ hv]
    simp [segPath]
  · have hlen : 2 ≤ ('/' :: base).length := by
      cases base with
      | nil => exact absurd rfl hb
      | cons c cs => simp
    rw [cleanLoop_segPath (seg :: segs) _ _ hv hlen]
    simp [hb, segPath]

/-- A slash at the end of a non-empty path is dropped by `path.Clean`. -/
theorem cleanChars_append_slash (x : List Char) (hx : x ≠ []) :
    cleanChars (x ++ ['/']) = cleanChars x := by
  cases x with
  | nil => exact absurd rfl hx
  | cons c rest =>
    simp only [cleanChars, List.cons_append]
    by_cases hc : c = '/'
    · simp only [hc, if_true]
      rw [cleanLoop_append_slash, cleanLoop.eq_1]
    · simp only [hc, if_false]
      rw [← List.cons_append, cleanLoop_append_slash, cleanLoop.eq_1]

/-! ### The output of `path.Clean` has no doubled slash -/

theorem NoDoubleSlash.append_char {out : List Char} (h : NoDoubleSlash out) (c : Char)
    (hc : c = '/' → out.getLast? ≠ some '/') : NoDoubleSlash (out ++ [c]) := by
  intro i hi hi1
  rcases Nat.lt_trichotomy (i + 1) out.length with hlt | heq | hgt
  · rw [List.getElem?_append_left (by omega)] at hi
    rw [List.getElem?_append_left hlt] at hi1
    exact h i hi hi1
  · rw [List.getElem?_append_left (by omega)] at hi
    rw [List.getElem?_append_right (by omega)] at hi1
    have h0 : i + 1 - out.length = 0 := by omega
    rw [h0] at hi1
    have hc1 : c = '/' := by simpa using hi1
    apply hc hc1
    rw [List.getLast?_eq_getElem?]
    have h1 : out.length - 1 = i := by omega
    rw [h1]
    exact hi
  · rw [List.getElem?_append_right (by omega)] at hi1
    rw [List.getElem?_eq_none (by simp; omega)] at hi1
    cases hi1

theorem NoDoubleSlash.take {out : List Char} (h : NoDoubleSlash out) (n : Nat) :
    NoDoubleSlash (out.take n) := by
  intro i hi hi1
  rw [List.getElem?_take] at hi hi1
  by_cases h1 : i + 1 < n
  · rw [if_pos h1] at hi1
    rw [if_pos (by omega)] at hi
    exact h i hi hi1
  · rw [if_neg h1] at hi1
    cases hi1

theorem backtrack_spec (buf : List Char) (dd w : Nat) (h : dd ≤ w) :
    dd ≤ backtrack buf dd w ∧ backtrack buf dd w ≤ w ∧
      (backtrack buf dd w = dd ∨ buf.getD (backtrack buf dd w) '/' = '/') := by
  induction w with
  | zero =>
    have hd : dd = 0 := by omega
    subst hd
    simp [backtrack]
  | succ w ih =>
    rw [backtrack]
    by_cases hcond : dd < w + 1 ∧ buf.getD (w + 1) '/' ≠ '/'
    · rw [if_pos hcond]
      obtain ⟨h1, h2, h3⟩ := ih (by omega)
      exact ⟨h1, by omega, h3⟩
    · rw [if_neg hcond]
      refine ⟨h, le_refl _, ?_⟩
      by_cases hlt : dd < w + 1
      · right
        by_contra hne
        exact hcond ⟨hlt, hne⟩
      · left
        omega

theorem CleanInv.grow {r : Bool} {out : List Char} {dd : Nat} (h : CleanInv r out dd)
    (ext : List Char) (hnd : NoDoubleSlash (out ++ ext))
    (hlast : (out ++ ext).getLast? ≠ some '/') : CleanInv r (out ++ ext) dd := by
  obtain ⟨_, _, h3, h4⟩ := h
  refine ⟨hnd, fun hl => absurd hl hlast, ?_, ?_⟩
  · rw [List.take_append_of_le_length h4]
    exact h3
  · simp
    omega

theorem CleanInv.copy_char {r : Bool} {out : List Char} {dd : Nat} (h : CleanInv r out dd)
    (c : Char) (hc : c ≠ '/') : CleanInv r (out ++ [c]) dd := by
  apply h.grow [c] (h.1.append_char c (fun hc1 => absurd hc1 hc))
  rw [List.getLast?_concat]
  intro hx
  exact hc (Option.some.inj hx)

theorem CleanInv.elem {r : Bool} {out : List Char} {dd : Nat} (h : CleanInv r out dd)
    (c : Char) (hc : c ≠ '/') : CleanInv r (addSlash r out ++ [c]) dd := by
  unfold addSlash
  split
  · rename_i hcond
    have hlast : out.getLast? ≠ some '/' := by
      intro hl
      obtain ⟨ho, hr⟩ := h.2.1 hl
      subst ho
      subst hr
      simp at hcond
    have h1 : NoDoubleSlash (out ++ ['/']) := h.1.append_char '/' (fun _ => hlast)
    have h2 : NoDoubleSlash (out ++ ['/'] ++ [c]) :=
      h1.append_char c (fun hc1 => absurd hc1 hc)
    rw [List.append_assoc]
    apply h.grow
    · rw [← List.append_assoc]
      exact h2
    · rw [← List.append_assoc, List.getLast?_concat]
      intro hx
      exact hc (Option.some.inj hx)
  · exact h.copy_char c hc

theorem CleanInv.dotdotStep {r : Bool} {out : List Char} {dd : Nat} (h : CleanInv r out dd) :
    CleanInv r (dotdotStep r out dd).1 (dotdotStep r out dd).2 := by
  obtain ⟨h1, h2, h3, h4⟩ := h
  unfold client.dotdotStep
  by_cases hlt : dd < out.length
  · rw [if_pos hlt]
    simp only
    obtain ⟨b1, b2, b3⟩ := backtrack_spec out dd (out.length - 1) (by omega)
    generalize backtrack out dd (out.length - 1) = w at b1 b2 b3
    have htt : (out.take w).take dd = out.take dd := by
      rw [List.take_take, Nat.min_eq_left b1]
    refine ⟨h1.take w, ?_, by rw [htt]; exact h3, by simp; omega⟩
    rcases b3 with b3 | b3
    · rw [b3]
      exact h3
    · intro hl
      exfalso
      rw [List.getLast?_eq_getElem?, List.length_take, List.getElem?_take] at hl
      have hmin : w ⊓ out.length = w := Nat.min_eq_left (by omega)
      rw [hmin] at hl
      by_cases hw : w - 1 < w
      · rw [if_pos hw] at hl
        have hw1 : out[w - 1 + 1]? = some '/' := by
          have e : w - 1 + 1 = w := by omega
          rw [e]
          rw [List.getD_eq_getElem?_getD] at b3
          have hsome : w < out.length := by omega
          rw [List.getElem?_eq_getElem hsome] at b3 ⊢
          simpa using b3
        exact h1 (w - 1) hl hw1
      · rw [if_neg hw] at hl
        cases hl
  · rw [if_neg hlt]
    cases r with
    | true => exact ⟨h1, h2, h3, h4⟩
    | false =>
      simp only [Bool.not_false, if_true]
      have hlast : out.getLast? ≠ some '/' := by
        intro hl
        have := (h2 hl).2
        cases this
      have e1 : NoDoubleSlash (if 0 < out.length then out ++ ['/'] else out) := by
        split
        · exact h1.append_char '/' (fun _ => hlast)
        · exact h1
      have e2 : NoDoubleSlash ((if 0 < out.length then out ++ ['/'] else out) ++ ['.']) :=
        e1.append_char '.' (fun hx => absurd hx (by decide))
      have e3 : NoDoubleSlash
          ((if 0 < out.length then out ++ ['/'] else out) ++ ['.'] ++ ['.']) :=
        e2.append_char '.' (fun hx => absurd hx (by decide))
      have e4 : (if 0 < out.length then out ++ ['/'] else out) ++ ['.', '.']
          = (if 0 < out.length then out ++ ['/'] else out) ++ ['.'] ++ ['.'] := by simp
      have e5 : EndsClean false
          ((if 0 < out.length then out ++ ['/'] else out) ++ ['.', '.']) := by
        intro hl
        rw [e4, List.getLast?_concat] at hl
        exact absurd (Option.some.inj hl) (by decide)
      refine ⟨by rw [e4]; exact e3, e5, ?_, le_refl _⟩
      rw [List.take_of_length_le (le_refl _)]
      exact e5

/-- The main loop of `path.Clean` keeps its invariant. -/
theorem cleanLoop_inv (r m : Bool) (rest out : List Char) (dd : Nat) (h : CleanInv r out dd) :
    CleanInv r (cleanLoop r m rest out dd).1 (cleanLoop r m rest out dd).2 := by
  induction m, rest, out, dd using cleanLoop.induct r with
  | case1 m out dd =>
    rw [cleanLoop.eq_1]
    exact h
  | case2 rest out dd ih =>
    rw [cleanLoop_copy_slash]
    exact ih h
  | case3 c rest out dd hc ih =>
    rw [cleanLoop_copy_char _ _ _ _ _ hc]
    exact ih (h.copy_char c hc)
  | case4 rest out dd ih =>
    rw [cleanLoop_slash]
    exact ih h
  | case5 c rest out dd hc hdot ih =>
    obtain ⟨hc1, hend⟩ := hdot
    subst hc1
    rw [cleanLoop_dot _ _ _ _ hend]
    exact ih h
  | case6 c out dd hc hdot ih =>
    have hd : c ≠ '.' := fun hd => hdot ⟨hd, rfl⟩
    rw [cleanLoop_elem_last _ _ _ _ hc hd]
    exact ih (h.elem c hc)
  | case7 c out dd hc d tail hdd hnd ih =>
    obtain ⟨e1, e2, e3⟩ := hdd
    subst e1
    subst e2
    rw [cleanLoop_dotdot _ _ _ _ e3]
    exact ih h.dotdotStep
  | case8 c out dd hc d tail hndd hnd ih =>
    rw [cleanLoop_elem _ _ _ _ _ _ hc hnd hndd]
    exact ih (h.elem c hc)

/-- The result of `path.Clean` has no doubled slash, and no slash at its end unless it
is the root. -/
theorem cleanChars_clean (x : List Char) :
    NoDoubleSlash (cleanChars x) ∧ ((cleanChars x).getLast? = some '/' → cleanChars x = ['/']) := by
  have hdot : NoDoubleSlash ['.'] ∧ (['.'].getLast? = some '/' → ['.'] = ['/']) := by
    constructor
    · intro i hi
      cases i with
      | zero => simp at hi
      | succ n => simp at hi
    · intro h
      simp at h
  cases x with
  | nil => exact hdot
  | cons c rest =>
    simp only [cleanChars]
    have key : ∀ (r : Bool) (xs out : List Char) (dd : Nat), CleanInv r out dd →
        NoDoubleSlash (if (cleanLoop r false xs out dd).1.length = 0 then ['.']
            else (cleanLoop r false xs out dd).1) ∧
          ((if (cleanLoop r false xs out dd).1.length = 0 then ['.']
            else (cleanLoop r false xs out dd).1).getLast? = some '/' →
            (if (cleanLoop r false xs out dd).1.length = 0 then ['.']
              else (cleanLoop r false xs out dd).1) = ['/']) := by
      intro r xs out dd hinv
      have hi := cleanLoop_inv r false xs out dd hinv
      split
      · exact hdot
      · exact ⟨hi.1, fun hl => (hi.2.1 hl).1⟩
    by_cases hc : c = '/'
    · simp only [hc, if_true]
      apply key
      refine ⟨?_, fun _ => ⟨rfl, rfl⟩, fun _ => ⟨rfl, rfl⟩, le_refl _⟩
      intro i hi hi1
      cases i with
      | zero => simp at hi1
      | succ n => simp at hi
    · simp only [hc, if_false]
      apply key
      refine ⟨?_, ?_, ?_, le_refl _⟩
      · intro i hi
        simp at hi
      · intro hl
        simp at hl
      · intro hl
        simp at hl

/-! ### `path.Join` of a base path and a formatted path -/

theorem Join_pair_data (p s : String) (hs : s.data ≠ []) :
    (Join [p, s]).data
      = if p.data = [] then cleanChars s.data else cleanChars (p.data ++ '/' :: s.data) := by
  obtain ⟨pd⟩ := p
  obtain ⟨sd⟩ := s
  simp only at hs
  by_cases hp : pd = []
  · subst hp
    have h1 : ((String.mk [] : String) == "") = true := by decide
    have h2 : ((String.mk sd : String) == "") = false := by
      apply beq_false_of_ne
      intro h
      exact hs (congrArg String.data h)
    simp [Join, List.dropWhile, h1, h2, stringsJoin, Clean]
  · have h1 : ((String.mk pd : String) == "") = false := by
      apply beq_false_of_ne
      intro h
      exact hp (congrArg String.data h)
    simp [Join, List.dropWhile, h1, stringsJoin, Clean, hp]

/-- The path sent for a formatted path made of real elements, over an empty or clean
rooted base path. -/
theorem Join_segPath (p suffix : String) (seg : List Char) (segs : List (List Char))
    (hv : ∀ s ∈ seg :: segs, ValidChars s) (hsuf : suffix.data = segPath (seg :: segs))
    (hbase : p = "" ∨ (p.data.head? = some '/' ∧ Clean p = p)) :
    Join [p, suffix] = basePrefix p ++ suffix ∧ WellFormedPath (Join [p, suffix]) := by
  have hne : suffix.data ≠ [] := by
    rw [hsuf, segPath_ne_nil]
    simp
  have hdata : (Join [p, suffix]).data = (basePrefix p).data ++ suffix.data := by
    rw [Join_pair_data p suffix hne]
    rcases hbase with hp | ⟨hroot, hclean⟩
    · subst hp
      simp only [if_true]
      rw [hsuf, cleanChars_segPath seg segs hv]
      simp [basePrefix]
    · obtain ⟨pd⟩ := p
      cases pd with
      | nil => simp at hroot
      | cons c b =>
        have hc : c = '/' := by simpa using hroot
        subst hc
        have hcl : cleanChars ('/' :: b) = '/' :: b := by
          have := congrArg String.data hclean
          simpa [Clean] using this
        simp only [List.cons_ne_nil, if_false]
        rw [hsuf, cleanChars_append_segPath b seg segs hcl hv]
        by_cases hb : b = []
        · subst hb
          have : (String.mk ['/'] : String) = "/" := rfl
          simp [basePrefix, this]
        · have hne1 : (String.mk ('/' :: b) : String) ≠ "/" := by
            intro h
            have := congrArg String.data h
            simp at this
            exact hb this
          simp [basePrefix, hne1, hb]
  have heq : Join [p, suffix] = basePrefix p ++ suffix := by
    apply String.ext
    rw [hdata, String.data_append]
  refine ⟨heq, ?_, ?_⟩
  · have hc : ∃ x, (Join [p, suffix]).data = cleanChars x := by
      rw [Join_pair_data p suffix hne]
      split
      · exact ⟨_, rfl⟩
      · exact ⟨_, rfl⟩
    obtain ⟨x, hx⟩ := hc
    rw [hx]
    exact (cleanChars_clean x).1
  · have hc : ∃ x, (Join [p, suffix]).data = cleanChars x := by
      rw [Join_pair_data p suffix hne]
      split
      · exact ⟨_, rfl⟩
      · exact ⟨_, rfl⟩
    obtain ⟨x, hx⟩ := hc
    intro hl
    have h1 : (Join [p, suffix]).data = ['/'] := by
      rw [hx] at hl ⊢
      exact (cleanChars_clean x).2 hl
    rw [hdata, hsuf, segPath_ne_nil] at h1
    have h2 := congrArg List.length h1
    obtain ⟨hsne, _⟩ := hv seg (List.mem_cons_self _ _)
    cases seg with
    | nil => exact hsne rfl
    | cons a as =>
      simp at h2
      omega

theorem validChars_literals :
    ValidChars ['v', '1'] ∧ ValidChars ['a', 'g', 'e', 'n', 't'] ∧
      ValidChars ['d', 'e', 'v', 'i', 'c', 'e', 's'] ∧
      ValidChars ['p', 'r', 'o', 't', 'o', 'c', 'o', 'l', 's'] ∧
      ValidChars ['a', 's', 't', 'a', 'r', 't', 'e', '_', 'm', 'q', 't', 't', '_', 'v', '1'] ∧
      ValidChars ['c', 'r', 'e', 'd', 'e', 'n', 't', 'i', 'a', 'l', 's'] := by
  unfold ValidChars
  decide

theorem registerPath_data (realm : String) :
    (Sprintf ["/v1/", realm, "/agent/devices"]).data
      = segPath [['v', '1'], realm.data, ['a', 'g', 'e', 'n', 't'],
          ['d', 'e', 'v', 'i', 'c', 'e', 's']] := by
  simp [Sprintf, String.data_append, segPath]

theorem unregisterPath_data (realm deviceID : String) :
    (Sprintf ["/v1/", realm, "/agent/devices/", deviceID]).data
      = segPath [['v', '1'], realm.data, ['a', 'g', 'e', 'n', 't'],
          ['d', 'e', 'v', 'i', 'c', 'e', 's'], deviceID.data] := by
  simp [Sprintf, String.data_append, segPath]

theorem certificatePath_data (realm deviceID : String) :
    (Sprintf ["/v1/", realm, "/devices/", deviceID,
        "/protocols/astarte_mqtt_v1/credentials"]).data
      = segPath [['v', '1'], realm.data, ['d', 'e', 'v', 'i', 'c', 'e', 's'], deviceID.data,
          ['p', 'r', 'o', 't', 'o', 'c', 'o', 'l', 's'],
          ['a', 's', 't', 'a', 'r', 't', 'e', '_', 'm', 'q', 't', 't', '_', 'v', '1'],
          ['c', 'r', 'e', 'd', 'e', 'n', 't', 'i', 'a', 'l', 's']] := by
  simp [Sprintf, String.data_append, segPath]

theorem protocolPath_data (realm deviceID : String) :
    (Sprintf ["/v1/", realm, "/devices/", deviceID]).data
      = segPath [['v', '1'], realm.data, ['d', 'e', 'v', 'i', 'c', 'e', 's'],
          deviceID.data] := by
  simp [Sprintf, String.data_append, segPath]

theorem Sprintf_three (a b c : String) : Sprintf [a, b, c] = a ++ b ++ c := by
  apply String.ext
  simp [Sprintf, String.data_append]

theorem Sprintf_four (a b c d : String) : Sprintf [a, b, c, d] = a ++ b ++ c ++ d := by
  apply String.ext
  simp [Sprintf, String.data_append]

theorem Sprintf_five (a b c d e : String) :
    Sprintf [a, b, c, d, e] = a ++ b ++ c ++ d ++ e := by
  apply String.ext
  simp [Sprintf, String.data_append]

/-! ### The one call of the transport made by each operation -/

theorem RegisterDevice_transportCalls {σ : Type} (net : NetURL) (c : Client σ)
    (realm deviceID token : String) (w : World σ) (u : URL) (h : CopiesTo net w u) :
    transportCalls (RegisterDevice net c realm deviceID token w).2.trace =
      transportCalls w.trace ++
        [Event.postWithResponse (requestURL net u (Sprintf ["/v1/", realm, "/agent/devices"]))
          (Payload.hwID deviceID) token 201] := by
  rw [RegisterDevice_of_copiesTo net c realm deviceID token w u h]
  simp only [World.postWithResponse, World.decode]
  cases hc : (c.genericJSONDataAPIPostWithResponse
      (requestURL net u (Sprintf ["/v1/", realm, "/agent/devices"]))
      (Payload.hwID deviceID) token 201 w.transport).1 with
  | error e => simp [transportCalls, Event.isTransportCall]
  | ok d =>
    cases hd : d.Decode (storeResponseBody storeDeviceRegistrationResponse) ⟨⟨""⟩⟩ <;>
      simp [hd, transportCalls, Event.isTransportCall]

theorem UnregisterDevice_transportCalls {σ : Type} (net : NetURL) (c : Client σ)
    (realm deviceID token : String) (w : World σ) (u : URL) (h : CopiesTo net w u) :
    transportCalls (UnregisterDevice net c realm deviceID token w).2.trace =
      transportCalls w.trace ++
        [Event.delete (requestURL net u (Sprintf ["/v1/", realm, "/agent/devices/", deviceID]))
          token 204] := by
  rw [UnregisterDevice_of_copiesTo net c realm deviceID token w u h]
  simp only [World.delete]
  cases hc : (c.genericJSONDataAPIDelete
      (requestURL net u (Sprintf ["/v1/", realm, "/agent/devices/", deviceID]))
      token 204 w.transport).1 <;> simp [transportCalls, Event.isTransportCall]

theorem ObtainNewMQTTv1CertificateForDevice_transportCalls {σ : Type} (net : NetURL)
    (c : Client σ) (realm deviceID credentialsSecret csr : String) (w : World σ) (u : URL)
    (h : CopiesTo net w u) :
    transportCalls
        (ObtainNewMQTTv1CertificateForDevice net c realm deviceID credentialsSecret csr w).2.trace
      = transportCalls w.trace ++
        [Event.postWithResponse
          (requestURL net u (Sprintf ["/v1/", realm, "/devices/", deviceID,
            "/protocols/astarte_mqtt_v1/credentials"]))
          (Payload.csr csr) credentialsSecret 201] := by
  rw [ObtainNewMQTTv1CertificateForDevice_of_copiesTo net c realm deviceID credentialsSecret
    csr w u h]
  simp only [World.postWithResponse, World.decode]
  cases hc : (c.genericJSONDataAPIPostWithResponse
      (requestURL net u (Sprintf ["/v1/", realm, "/devices/", deviceID,
        "/protocols/astarte_mqtt_v1/credentials"]))
      (Payload.csr csr) credentialsSecret 201 w.transport).1 with
  | error e => simp [transportCalls, Event.isTransportCall]
  | ok d =>
    cases hd : d.Decode (storeResponseBody storeGetMQTTv1CertificateResponse) ⟨⟨""⟩⟩ <;>
      simp [hd, transportCalls, Event.isTransportCall]

theorem GetMQTTv1ProtocolInformationForDevice_transportCalls {σ : Type} (net : NetURL)
    (c : Client σ) (realm deviceID credentialsSecret : String) (w : World σ) (u : URL)
    (h : CopiesTo net w u) :
    transportCalls
        (GetMQTTv1ProtocolInformationForDevice net c realm deviceID credentialsSecret w).2.trace
      = transportCalls w.trace ++
        [Event.get (requestURL net u (Sprintf ["/v1/", realm, "/devices/", deviceID]))
          credentialsSecret 200] := by
  rw [GetMQTTv1ProtocolInformationForDevice_of_copiesTo net c realm deviceID
    credentialsSecret w u h]
  simp only [World.get, World.decode]
  cases hc : (c.genericJSONDataAPIGET
      (requestURL net u (Sprintf ["/v1/", realm, "/devices/", deviceID]))
      credentialsSecret 200 w.transport).1 with
  | error e => simp [transportCalls, Event.isTransportCall]
  | ok d =>
    cases hd : d.Decode (storeResponseBody storeGetDeviceProtocolStatusResponse)
        ⟨⟨⟨⟨""⟩⟩⟩⟩ <;>
      simp [hd, transportCalls, Event.isTransportCall]

theorem requestURL_segPath (net : NetURL) (u : URL) (p suffix : String) (seg : List Char)
    (segs : List (List Char)) (hpath : u.Path = p) (hv : ∀ s ∈ seg :: segs, ValidChars s)
    (hsuf : suffix.data = segPath (seg :: segs))
    (hbase : p = "" ∨ (p.data.head? = some '/' ∧ Clean p = p)) :
    requestURL net u suffix = net.URLString { u with Path := basePrefix p ++ suffix } ∧
      WellFormedPath (basePrefix p ++ suffix) := by
  have h := Join_segPath p suffix seg segs hv hsuf hbase
  rw [h.1] at h
  refine ⟨?_, h.2⟩
  unfold requestURL
  rw [hpath, (Join_segPath p suffix seg segs hv hsuf hbase).1]

/-- C7, counterexample: the base URL `http://pairing.test/` has the clean absolute path
`/`; the path sent by `RegisterDevice` is the documented path alone, not the base path
followed by the documented path (which has a doubled slash). -/
theorem RegisterDevice_root_base_path :
    Clean (sampleURL "/").Path = (sampleURL "/").Path ∧
      transportCalls (RegisterDevice sampleNet (replyClient .null) "realm" "device" "token"
          (sampleWorld "/")).2.trace
        = [Event.postWithResponse
            (sampleNet.URLString (sampleURL "/v1/realm/agent/devices"))
            (Payload.hwID "device") "token" 201] ∧
      sampleNet.URLString (sampleURL "/v1/realm/agent/devices")
        ≠ sampleNet.URLString
            (sampleURL ((sampleURL "/").Path ++ "/v1/realm/agent/devices")) := by
  refine ⟨by decide, rfl, by decide⟩

/-- C7, as amended: for `realm` and `deviceID` single valid path segments and a base URL
whose path is empty, the root, or an already-clean absolute path (and is the path of
the per-call copy), the URL each operation sends to the transport has as its path the
base path (nothing, when the base path is the root) followed by exactly the documented
path, and that path has no doubled slash and no slash at its end. -/
theorem request_paths {σ : Type} (net : NetURL) (c : Client σ)
    (realm deviceID credential csr : String) (w : World σ) (base u : URL)
    (hb : w.baseURL = some base) (hp : net.Parse (net.URLString base) = .ok u)
    (hpath : u.Path = base.Path) (hrealm : ValidSegment realm)
    (hdev : ValidSegment deviceID)
    (hbase : base.Path = "" ∨
      (base.Path.data.head? = some '/' ∧ Clean base.Path = base.Path)) :
    (transportCalls (RegisterDevice net c realm deviceID credential w).2.trace
          = transportCalls w.trace ++
            [Event.postWithResponse
              (net.URLString { u with
                Path := basePrefix base.Path ++ ("/v1/" ++ realm ++ "/agent/devices") })
              (Payload.hwID deviceID) credential 201] ∧
        WellFormedPath (basePrefix base.Path ++ ("/v1/" ++ realm ++ "/agent/devices"))) ∧
      (transportCalls (UnregisterDevice net c realm deviceID credential w).2.trace
          = transportCalls w.trace ++
            [Event.delete
              (net.URLString { u with
                Path := basePrefix base.Path
                  ++ ("/v1/" ++ realm ++ "/agent/devices/" ++ deviceID) })
              credential 204] ∧
        WellFormedPath
          (basePrefix base.Path ++ ("/v1/" ++ realm ++ "/agent/devices/" ++ deviceID))) ∧
      (transportCalls
            (ObtainNewMQTTv1CertificateForDevice net c realm deviceID credential csr w).2.trace
          = transportCalls w.trace ++
            [Event.postWithResponse
              (net.URLString { u with
                Path := basePrefix base.Path
                  ++ ("/v1/" ++ realm ++ "/devices/" ++ deviceID
                    ++ "/protocols/astarte_mqtt_v1/credentials") })
              (Payload.csr csr) credential 201] ∧
        WellFormedPath
          (basePrefix base.Path
            ++ ("/v1/" ++ realm ++ "/devices/" ++ deviceID
              ++ "/protocols/astarte_mqtt_v1/credentials"))) ∧
      (transportCalls
            (GetMQTTv1ProtocolInformationForDevice net c realm deviceID credential w).2.trace
          = transportCalls w.trace ++
            [Event.get
              (net.URLString { u with
                Path := basePrefix base.Path ++ ("/v1/" ++ realm ++ "/devices/" ++ deviceID) })
              credential 200] ∧
        WellFormedPath
          (basePrefix base.Path ++ ("/v1/" ++ realm ++ "/devices/" ++ deviceID))) := by
  have h : CopiesTo net w u := ⟨base, hb, hp⟩
  obtain ⟨v1, agent, devices, protocols, mqtt, credentials⟩ := validChars_literals
  have r1 := requestURL_segPath net u base.Path (Sprintf ["/v1/", realm, "/agent/devices"])
    _ _ hpath
    (by
      intro s hs
      simp only [List.mem_cons, List.mem_singleton, List.not_mem_nil, or_false] at hs
      rcases hs with hs | hs | hs | hs <;> subst hs <;> assumption)
    (registerPath_data realm) hbase
  have r2 := requestURL_segPath net u base.Path
    (Sprintf ["/v1/", realm, "/agent/devices/", deviceID]) _ _ hpath
    (by
      intro s hs
      simp only [List.mem_cons, List.mem_singleton, List.not_mem_nil, or_false] at hs
      rcases hs with hs | hs | hs | hs | hs <;> subst hs <;> assumption)
    (unregisterPath_data realm deviceID) hbase
  have r3 := requestURL_segPath net u base.Path
    (Sprintf ["/v1/", realm, "/devices/", deviceID, "/protocols/astarte_mqtt_v1/credentials"])
    _ _ hpath
    (by
      intro s hs
      simp only [List.mem_cons, List.mem_singleton, List.not_mem_nil, or_false] at hs
      rcases hs with hs | hs | hs | hs | hs | hs | hs <;> subst hs <;> assumption)
    (certificatePath_data realm deviceID) hbase
  have r4 := requestURL_segPath net u base.Path
    (Sprintf ["/v1/", realm, "/devices/", deviceID]) _ _ hpath
    (by
      intro s hs
      simp only [List.mem_cons, List.mem_singleton, List.not_mem_nil, or_false] at hs
      rcases hs with hs | hs | hs | hs <;> subst hs <;> assumption)
    (protocolPath_data realm deviceID) hbase
  rw [Sprintf_three] at r1
  rw [Sprintf_four] at r2 r4
  rw [Sprintf_five] at r3
  rw [RegisterDevice_transportCalls net c realm deviceID credential w u h,
    UnregisterDevice_transportCalls net c realm deviceID credential w u h,
    ObtainNewMQTTv1CertificateForDevice_transportCalls net c realm deviceID credential csr w u h,
    GetMQTTv1ProtocolInformationForDevice_transportCalls net c realm deviceID credential w u h,
    Sprintf_three, Sprintf_four, Sprintf_four, Sprintf_five, r1.1, r2.1, r3.1, r4.1]
  exact ⟨⟨rfl, r1.2⟩, ⟨rfl, r2.2⟩, ⟨rfl, r3.2⟩, ⟨rfl, r4.2⟩⟩

/-- Witness of C7 as amended, on the base URL `http://pairing.test/api`. -/
theorem request_paths_witness :
    ValidSegment "realm" ∧ ValidSegment "device" ∧
      Clean (sampleURL "/api").Path = (sampleURL "/api").Path ∧
      transportCalls (RegisterDevice sampleNet (replyClient .null) "realm" "device" "token"
          (sampleWorld "/api")).2.trace
        = [Event.postWithResponse "http://pairing.test/api/v1/realm/agent/devices"
            (Payload.hwID "device") "token" 201] ∧
      transportCalls (GetMQTTv1ProtocolInformationForDevice sampleNet (replyClient .null)
          "realm" "device" "token" (sampleWorld "/api")).2.trace
        = [Event.get "http://pairing.test/api/v1/realm/devices/device" "token" 200] :=
  ⟨by unfold ValidSegment ValidChars; decide, by unfold ValidSegment ValidChars; decide,
    by decide,
    (request_paths sampleNet (replyClient .null) "realm" "device" "token" "csr"
      (sampleWorld "/api") (sampleURL "/api") (sampleURL "/api") rfl rfl rfl
      (by unfold ValidSegment ValidChars; decide) (by unfold ValidSegment ValidChars; decide)
      (Or.inr ⟨rfl, by decide⟩)).1.1,
    (request_paths sampleNet (replyClient .null) "realm" "device" "token" "csr"
      (sampleWorld "/api") (sampleURL "/api") (sampleURL "/api") rfl rfl rfl
      (by unfold ValidSegment ValidChars; decide) (by unfold ValidSegment ValidChars; decide)
      (Or.inr ⟨rfl, by decide⟩)).2.2.2.1⟩

/-! ### An empty device identifier -/

theorem Join_trailing_slash (p s1 s2 : String) (hs : s1.data = s2.data ++ ['/'])
    (hne : s2.data ≠ []) : Join [p, s1] = Join [p, s2] := by
  apply String.ext
  rw [Join_pair_data p s1 (by rw [hs]; simp), Join_pair_data p s2 hne, hs]
  split
  · exact cleanChars_append_slash _ hne
  · have e : p.data ++ '/' :: (s2.data ++ ['/']) = (p.data ++ '/' :: s2.data) ++ ['/'] := by
      simp
    rw [e]
    exact cleanChars_append_slash _ (by simp)

theorem requestURL_empty_deviceID (net : NetURL) (u : URL) (realm middle : String) :
    requestURL net u (Sprintf ["/v1/", realm, middle ++ "/", ""])
      = requestURL net u (Sprintf ["/v1/", realm, middle]) := by
  unfold requestURL
  rw [Join_trailing_slash u.Path (Sprintf ["/v1/", realm, middle ++ "/", ""])
    (Sprintf ["/v1/", realm, middle])
    (by
      have e : ("/" : String).data = ['/'] := rfl
      simp [Sprintf, String.data_append, e])
    (by simp [Sprintf, String.data_append])]

/-- C10: with the per-call copy of the base URL in hand, for every realm, token and base
URL: `UnregisterDevice` with the empty `deviceID` makes its one call, a DELETE, to the
very URL `RegisterDevice` makes its POST to (path `Join(base, /v1/{realm}/agent/devices)`),
and returns what the transport returned; `GetMQTTv1ProtocolInformationForDevice` with
the empty `deviceID` makes its GET to the URL with path `Join(base, /v1/{realm}/devices)`
and, when transport and decoder succeed, returns the decoded value with a nil error. -/
theorem empty_deviceID_collapses {σ : Type} (net : NetURL) (c : Client σ)
    (realm token registeredID : String) (w : World σ) (u : URL) (h : CopiesTo net w u) :
    (UnregisterDevice net c realm "" token w).2.trace = w.trace ++
        [Event.delete (requestURL net u (Sprintf ["/v1/", realm, "/agent/devices"]))
          token 204] ∧
      transportCalls (RegisterDevice net c realm registeredID token w).2.trace =
        transportCalls w.trace ++
          [Event.postWithResponse
            (requestURL net u (Sprintf ["/v1/", realm, "/agent/devices"]))
            (Payload.hwID registeredID) token 201] ∧
      (UnregisterDevice net c realm "" token w).1 =
        .returned (c.genericJSONDataAPIDelete
          (requestURL net u (Sprintf ["/v1/", realm, "/agent/devices"]))
          token 204 w.transport).1 ∧
      transportCalls (GetMQTTv1ProtocolInformationForDevice net c realm "" token w).2.trace =
        transportCalls w.trace ++
          [Event.get (requestURL net u (Sprintf ["/v1/", realm, "/devices"])) token 200] ∧
      (∀ decoder envelope,
        (c.genericJSONDataAPIGET (requestURL net u (Sprintf ["/v1/", realm, "/devices"]))
            token 200 w.transport).1 = .ok decoder →
        decoder.Decode (storeResponseBody storeGetDeviceProtocolStatusResponse) ⟨⟨⟨⟨""⟩⟩⟩⟩
            = .ok envelope →
        (GetMQTTv1ProtocolInformationForDevice net c realm "" token w).1
            = .returned (envelope.Data.Protocols.AstarteMQTTv1, none)) := by
  have e1 : requestURL net u (Sprintf ["/v1/", realm, "/agent/devices/", ""])
      = requestURL net u (Sprintf ["/v1/", realm, "/agent/devices"]) :=
    requestURL_empty_deviceID net u realm "/agent/devices"
  have e2 : requestURL net u (Sprintf ["/v1/", realm, "/devices/", ""])
      = requestURL net u (Sprintf ["/v1/", realm, "/devices"]) :=
    requestURL_empty_deviceID net u realm "/devices"
  refine ⟨?_, RegisterDevice_transportCalls net c realm registeredID token w u h, ?_, ?_, ?_⟩
  · rw [UnregisterDevice_of_copiesTo net c realm "" token w u h]
    simp only [World.delete, e1]
    cases hc : (c.genericJSONDataAPIDelete
        (requestURL net u (Sprintf ["/v1/", realm, "/agent/devices"]))
        token 204 w.transport).1 <;> simp
  · rw [UnregisterDevice_of_copiesTo net c realm "" token w u h]
    simp only [World.delete, e1]
    cases hc : (c.genericJSONDataAPIDelete
        (requestURL net u (Sprintf ["/v1/", realm, "/agent/devices"]))
        token 204 w.transport).1 <;> simp
  · rw [GetMQTTv1ProtocolInformationForDevice_transportCalls net c realm "" token w u h, e2]
  · intro decoder envelope hc hd
    rw [GetMQTTv1ProtocolInformationForDevice_of_copiesTo net c realm "" token w u h]
    simp [World.get, World.decode, e2, hc, hd]

/-- Witness of C10: the DELETE for the empty identifier goes to the collection. -/
theorem empty_deviceID_collapses_witness :
    CopiesTo sampleNet (sampleWorld "/api") (sampleURL "/api") ∧
      (UnregisterDevice sampleNet (replyClient .null) "realm" "" "token"
          (sampleWorld "/api")).2.trace
        = [Event.delete "http://pairing.test/api/v1/realm/agent/devices" "token" 204] :=
  ⟨sampleWorld_copiesTo "/api" rfl,
    (empty_deviceID_collapses sampleNet (replyClient .null) "realm" "token" "device"
      (sampleWorld "/api") (sampleURL "/api") (sampleWorld_copiesTo "/api" rfl)).1⟩

end client
